import Mathlib

/-!
# Verification of the qqbot channel connector

Shallow embedding of the qqbot repository (TypeScript) in Lean 4 and proofs
about it.  Each embedded definition is translated from a concrete source
function; the source file and location are given in its doc comment.

Conventions used throughout:
* JavaScript wallclock milliseconds are modelled as `Int` (JS numbers are
  used only at integral millisecond values in the embedded code paths).
* A JavaScript `Map` is an insertion-ordered association list
  `List (κ × α)`; `Map.get` is `assocGet`, `Map.set` is `assocSet` (which
  updates an existing key in place, preserving its position, and appends a
  fresh key at the end, exactly like the JS `Map` iteration order).
* REST / network effects are modelled by an explicit environment value
  describing the outcome of each call, and by an emitted list of
  `RestAction`s describing which calls the code issued and in what order.
* `console.log` output and the human-readable `message` strings attached to
  some results are elided; result fields that the code branches on are kept.
-/

namespace QQBot

/-! ## Insertion-ordered association maps (JS `Map` semantics) -/

/-- JS `Map.get`: first binding for the key, scanning in insertion order. -/
def assocGet {κ α : Type} [DecidableEq κ] : List (κ × α) → κ → Option α
  | [], _ => none
  | (k₂, v) :: rest, k => if k = k₂ then some v else assocGet rest k

/-- JS `Map.set`: update an existing binding in place (keeping its position in
the insertion order) or append a fresh binding at the end. -/
def assocSet {κ α : Type} [DecidableEq κ] : List (κ × α) → κ → α → List (κ × α)
  | [], k, v => [(k, v)]
  | (k₂, v₂) :: rest, k, v =>
      if k = k₂ then (k, v) :: rest else (k₂, v₂) :: assocSet rest k v

/-- The keys of the association list are pairwise distinct (an invariant of
every JS `Map`, preserved by `assocSet`). -/
def keysNodup {κ α : Type} (m : List (κ × α)) : Prop := (m.map Prod.fst).Nodup

theorem assocGet_assocSet_self {κ α : Type} [DecidableEq κ]
    (m : List (κ × α)) (k : κ) (v : α) : assocGet (assocSet m k v) k = some v := by
  induction m with
  | nil => simp [assocSet, assocGet]
  | cons hd tl ih =>
    by_cases h : k = hd.1
    · simp [assocSet, assocGet, h]
    · simp [assocSet, assocGet, h, ih]

theorem assocGet_assocSet_ne {κ α : Type} [DecidableEq κ]
    (m : List (κ × α)) (k k₂ : κ) (v : α) (h : k₂ ≠ k) :
    assocGet (assocSet m k v) k₂ = assocGet m k₂ := by
  induction m with
  | nil => simp [assocSet, assocGet, h]
  | cons hd tl ih =>
    by_cases hk : k = hd.1
    · subst hk
      simp [assocSet, assocGet, h]
    · by_cases hk₂ : k₂ = hd.1
      · simp [assocSet, assocGet, hk, hk₂]
      · simp [assocSet, assocGet, hk, hk₂, ih]

theorem keysNodup_nil {κ α : Type} : keysNodup ([] : List (κ × α)) := by
  simp [keysNodup]

theorem assocGet_eq_none_iff {κ α : Type} [DecidableEq κ]
    (m : List (κ × α)) (k : κ) :
    assocGet m k = none ↔ k ∉ m.map Prod.fst := by
  induction m with
  | nil => simp [assocGet]
  | cons hd tl ih =>
    by_cases h : k = hd.1 <;> simp [assocGet, h, ih]

theorem keys_assocSet_of_mem {κ α : Type} [DecidableEq κ]
    (m : List (κ × α)) (k : κ) (v : α) (h : k ∈ m.map Prod.fst) :
    (assocSet m k v).map Prod.fst = m.map Prod.fst := by
  induction m with
  | nil => simp at h
  | cons hd tl ih =>
    by_cases hk : k = hd.1
    · simp [assocSet, hk]
    · have htl : k ∈ tl.map Prod.fst := by
        simp at h
        rcases h with h | h
        · exact absurd h hk
        · simpa using h
      simp [assocSet, hk, ih htl]

theorem keys_assocSet_of_not_mem {κ α : Type} [DecidableEq κ]
    (m : List (κ × α)) (k : κ) (v : α) (h : k ∉ m.map Prod.fst) :
    (assocSet m k v).map Prod.fst = m.map Prod.fst ++ [k] := by
  induction m with
  | nil => simp [assocSet]
  | cons hd tl ih =>
    have h₂ : ¬ (k = hd.1 ∨ k ∈ tl.map Prod.fst) := by simpa using h
    push_neg at h₂
    simp [assocSet, h₂.1, ih h₂.2]

theorem keysNodup_assocSet {κ α : Type} [DecidableEq κ]
    (m : List (κ × α)) (k : κ) (v : α) (h : keysNodup m) :
    keysNodup (assocSet m k v) := by
  by_cases hk : k ∈ m.map Prod.fst
  · unfold keysNodup
    rw [keys_assocSet_of_mem m k v hk]
    exact h
  · unfold keysNodup
    rw [keys_assocSet_of_not_mem m k v hk]
    exact List.Nodup.append h (List.nodup_singleton k)
      (by intro a ha hb; simp at hb; subst hb; exact hk ha)

theorem keysNodup_filter {κ α : Type} (m : List (κ × α)) (p : κ × α → Bool)
    (h : keysNodup m) : keysNodup (m.filter p) := by
  have hsub : List.Sublist ((m.filter p).map Prod.fst) (m.map Prod.fst) :=
    List.Sublist.map Prod.fst (List.filter_sublist m)
  exact hsub.nodup h

/-! ## Reply limiter (src/outbound.ts lines 20-123)

Per inbound `message_id` passive-reply quota: at most `MESSAGE_REPLY_LIMIT`
replies within `MESSAGE_REPLY_TTL` of the first recorded reply. -/

/-- src/outbound.ts line 22: `const MESSAGE_REPLY_LIMIT = 4`. -/
def MESSAGE_REPLY_LIMIT : Int := 4

/-- src/outbound.ts line 23: `const MESSAGE_REPLY_TTL = 60 * 60 * 1000`. -/
def MESSAGE_REPLY_TTL : Int := 60 * 60 * 1000

/-- src/outbound.ts lines 25-28: one entry of `messageReplyTracker`. -/
structure MessageReplyRecord where
  count : Int
  firstReplyAt : Int
  deriving Repr, DecidableEq

/-- The global `messageReplyTracker` map, keyed by inbound message id. -/
def ReplyTracker := List (String × MessageReplyRecord)

instance : DecidableEq ReplyTracker := by
  unfold ReplyTracker
  infer_instance

/-- Values of the `fallbackReason` field of a limit-check result
(src/outbound.ts line 41). -/
inductive FallbackReason where
  | expired
  | limit_exceeded
  deriving Repr, DecidableEq

/-- src/outbound.ts lines 33-44: `ReplyLimitResult` (the human-readable
`message` string is elided; all fields the callers branch on are kept). -/
structure ReplyLimitResult where
  allowed : Bool
  remaining : Int
  shouldFallbackToProactive : Bool
  fallbackReason : Option FallbackReason := none
  deriving Repr, DecidableEq

/-- src/outbound.ts lines 56-62: inside `checkMessageReplyLimit`, when the
tracker holds more than 10000 entries, every expired record is deleted. -/
def pruneIfOversize (now : Int) (tr : ReplyTracker) : ReplyTracker :=
  if tr.length > 10000 then
    tr.filter (fun e => ¬ (now - e.2.firstReplyAt > MESSAGE_REPLY_TTL))
  else tr

/-- src/outbound.ts lines 51-102: `checkMessageReplyLimit`.  The record is
read before the pruning pass (the JS code captures it in a local), so the
returned result is computed from the pre-prune lookup; the pruned tracker is
returned alongside. -/
def checkMessageReplyLimit (now : Int) (tr : ReplyTracker) (messageId : String) :
    ReplyLimitResult × ReplyTracker :=
  let record := assocGet tr messageId
  let tr₂ := pruneIfOversize now tr
  match record with
  | none =>
      ({ allowed := true, remaining := MESSAGE_REPLY_LIMIT,
         shouldFallbackToProactive := false }, tr₂)
  | some r =>
      if now - r.firstReplyAt > MESSAGE_REPLY_TTL then
        ({ allowed := false, remaining := 0, shouldFallbackToProactive := true,
           fallbackReason := some .expired }, tr₂)
      else
        let remaining := MESSAGE_REPLY_LIMIT - r.count
        if remaining ≤ 0 then
          ({ allowed := false, remaining := 0, shouldFallbackToProactive := true,
             fallbackReason := some .limit_exceeded }, tr₂)
        else
          ({ allowed := true, remaining := remaining,
             shouldFallbackToProactive := false }, tr₂)

/-- src/outbound.ts lines 108-123: `recordMessageReply`. -/
def recordMessageReply (now : Int) (tr : ReplyTracker) (messageId : String) :
    ReplyTracker :=
  match assocGet tr messageId with
  | none => assocSet tr messageId ⟨1, now⟩
  | some r =>
      if now - r.firstReplyAt > MESSAGE_REPLY_TTL then
        assocSet tr messageId ⟨1, now⟩
      else
        assocSet tr messageId ⟨r.count + 1, r.firstReplyAt⟩

/-- C3 -- `checkMessageReplyLimit(messageId)` returns exactly one of four
outcomes: no record yields allowed with remaining 4; an expired record (now
minus firstReplyAt strictly above the 1 h TTL) yields not-allowed with
fallback reason `expired`; a live record with count at least 4 yields
not-allowed with fallback reason `limit_exceeded`; otherwise allowed with
remaining equal to 4 minus count. -/
theorem checkMessageReplyLimit_four_outcomes
    (now : Int) (tr : ReplyTracker) (messageId : String) :
    (assocGet tr messageId = none →
      (checkMessageReplyLimit now tr messageId).1 =
        { allowed := true, remaining := 4, shouldFallbackToProactive := false }) ∧
    (∀ r, assocGet tr messageId = some r →
      now - r.firstReplyAt > MESSAGE_REPLY_TTL →
      (checkMessageReplyLimit now tr messageId).1 =
        { allowed := false, remaining := 0, shouldFallbackToProactive := true,
          fallbackReason := some .expired }) ∧
    (∀ r, assocGet tr messageId = some r →
      ¬ (now - r.firstReplyAt > MESSAGE_REPLY_TTL) → 4 ≤ r.count →
      (checkMessageReplyLimit now tr messageId).1 =
        { allowed := false, remaining := 0, shouldFallbackToProactive := true,
          fallbackReason := some .limit_exceeded }) ∧
    (∀ r, assocGet tr messageId = some r →
      ¬ (now - r.firstReplyAt > MESSAGE_REPLY_TTL) → r.count < 4 →
      (checkMessageReplyLimit now tr messageId).1 =
        { allowed := true, remaining := 4 - r.count,
          shouldFallbackToProactive := false }) := by
  refine ⟨?_, ?_, ?_, ?_⟩
  · intro h
    simp [checkMessageReplyLimit, h, MESSAGE_REPLY_LIMIT]
  · intro r h hexp
    simp [checkMessageReplyLimit, h, hexp]
  · intro r h hlive hcount
    simp [checkMessageReplyLimit, h, hlive, MESSAGE_REPLY_LIMIT, hcount]
  · intro r h hlive hcount
    have hle : ¬ ((4 : Int) ≤ r.count) := by omega
    simp [checkMessageReplyLimit, h, hlive, MESSAGE_REPLY_LIMIT, hle]

/-- Witness for C3: all four outcome branches evaluated at concrete inputs. -/
theorem checkMessageReplyLimit_four_outcomes_witness :
    (checkMessageReplyLimit 0 [] "m").1 =
      { allowed := true, remaining := 4, shouldFallbackToProactive := false } ∧
    (checkMessageReplyLimit 4000000 [("m", ⟨2, 0⟩)] "m").1 =
      { allowed := false, remaining := 0, shouldFallbackToProactive := true,
        fallbackReason := some .expired } ∧
    (checkMessageReplyLimit 1000 [("m", ⟨4, 0⟩)] "m").1 =
      { allowed := false, remaining := 0, shouldFallbackToProactive := true,
        fallbackReason := some .limit_exceeded } ∧
    (checkMessageReplyLimit 1000 [("m", ⟨1, 0⟩)] "m").1 =
      { allowed := true, remaining := 3, shouldFallbackToProactive := false } := by
  refine ⟨?_, ?_, ?_, ?_⟩
  · exact (checkMessageReplyLimit_four_outcomes 0 [] "m").1 (by decide)
  · exact (checkMessageReplyLimit_four_outcomes 4000000 [("m", ⟨2, 0⟩)] "m").2.1
      ⟨2, 0⟩ (by decide) (by decide)
  · exact (checkMessageReplyLimit_four_outcomes 1000 [("m", ⟨4, 0⟩)] "m").2.2.1
      ⟨4, 0⟩ (by decide) (by decide) (by decide)
  · have h := (checkMessageReplyLimit_four_outcomes 1000 [("m", ⟨1, 0⟩)] "m").2.2.2
      ⟨1, 0⟩ (by decide) (by decide) (by decide)
    simpa using h

/-! ## Outbound dispatcher (src/outbound.ts lines 147-330)

`sendText` is modelled as a pure transition on the reply tracker.  The REST
plane is represented by a `RestEnv` value fixing the outcome of the (at most
one) token fetch and the (at most one) message-send call of the invocation,
and by the emitted list of `RestAction`s recording which REST calls were
issued, in order. -/

/-- The fields of `ResolvedQQBotAccount` that `sendText` and
`sendProactiveMessage` read (src/types.ts; `!account.appId` and
`!account.clientSecret` are JS falsiness tests, i.e. empty-string tests for
these string fields). -/
structure ResolvedAccountM where
  appId : String
  clientSecret : String
  deriving Repr, DecidableEq

/-- Target kinds produced by `parseTarget` (src/outbound.ts lines 174-189). -/
inductive TargetType where
  | c2c
  | group
  | channel
  deriving Repr, DecidableEq

/-- JS string primitives, implemented on the code-point list so that the
kernel can evaluate them on literals (the library versions are opaque to
kernel reduction). -/
def strTake (s : String) (n : Nat) : String := ⟨s.data.take n⟩

/-- JS `String.prototype.slice(n)`: drop the first `n` code points. -/
def strDrop (s : String) (n : Nat) : String := ⟨s.data.drop n⟩

/-- ASCII-adequate `toLowerCase` (the stripped marker `qqbot:` is ASCII). -/
def strToLower (s : String) : String := ⟨s.data.map Char.toLower⟩

/-- JS `String.prototype.startsWith`. -/
def strStartsWith (s pfx : String) : Bool := pfx.data.isPrefixOf s.data

/-- src/outbound.ts lines 174-189: `parseTarget`.  The leading `qqbot:`
marker is stripped case-insensitively (the regex `^qqbot:` with flag `i`);
`c2c:`/`group:`/`channel:` markers select the kind; anything else defaults
to C2C. -/
def parseTarget (toAddr : String) : TargetType × String :=
  let id := if strToLower (strTake toAddr 6) = "qqbot:" then strDrop toAddr 6
            else toAddr
  if strStartsWith id "c2c:" then (.c2c, strDrop id 4)
  else if strStartsWith id "group:" then (.group, strDrop id 6)
  else if strStartsWith id "channel:" then (.channel, strDrop id 8)
  else (.c2c, id)

/-- REST calls a single outbound invocation can issue, in order of
emission.  A passive send is a message-send REST call that carries the
inbound `msg_id`; an active (proactive) send carries none. -/
inductive RestAction where
  | tokenFetch
  | passiveSend (target : TargetType) (id : String) (content : String) (msgId : String)
  | activeSend (target : TargetType) (id : String) (content : String)
  deriving Repr, DecidableEq

/-- Environment fixing the outcomes of the REST plane for one invocation:
whether `getAccessToken` succeeds, whether the message-send REST call
succeeds, and the `id`/`timestamp` of the platform response on success. -/
structure RestEnv where
  tokenOk : Bool
  sendOk : Bool
  resultId : String
  resultTs : Int
  deriving Repr, DecidableEq

/-- src/outbound.ts lines 159-164: `OutboundResult` (the constant
`channel: "qqbot"` field is elided). -/
structure OutboundResultM where
  messageId : Option String := none
  timestamp : Option Int := none
  error : Option String := none
  deriving Repr, DecidableEq

/-- src/outbound.ts lines 147-153: `OutboundContext` (the unused
`accountId` pass-through field is elided). -/
structure OutboundContextM where
  toAddr : String
  text : String
  replyToId : Option String
  account : ResolvedAccountM
  deriving Repr, DecidableEq

/-- JS truthiness of an optional string: `if (replyToId)` treats both
`undefined` and the empty string as false. -/
def jsStr? : Option String → Option String
  | some "" => none
  | x => x

/-- The JS test `!text || text.trim().length === 0`: true iff every
character of the string is whitespace (in particular for the empty
string). -/
def trimEmpty (s : String) : Bool := s.data.all Char.isWhitespace

/-- The send stage of `sendText` (src/outbound.ts lines 231-292): everything
after the limiter consultation, with `replyToId` already resolved (cleared on
limiter fallback) and the limiter-updated tracker `tr₂` in hand:
1. an active send (no `replyToId`) with empty/whitespace-only `text` fails
   immediately with no REST call;
2. missing `appId`/`clientSecret` fails with "QQBot not configured";
3. `getAccessToken` is called; on failure the thrown error is caught and
   returned as the result error;
4. the target is parsed and one send REST call is issued (active when no
   `replyToId`, passive otherwise); on passive success `recordMessageReply`
   is invoked, on failure the tracker is left untouched. -/
def sendTextResume (tr₂ : ReplyTracker) (now : Int) (ctx : OutboundContextM)
    (env : RestEnv) (replyToId : Option String) :
    OutboundResultM × ReplyTracker × List RestAction :=
  if replyToId.isNone ∧ trimEmpty ctx.text then
    ({ error := some "主动消息必须有内容 (--message 参数不能为空)" }, tr₂, [])
  else if ctx.account.appId = "" ∨ ctx.account.clientSecret = "" then
    ({ error := some "QQBot not configured (missing appId or clientSecret)" },
      tr₂, [])
  else if ¬ env.tokenOk then
    ({ error := some "Failed to get access_token" }, tr₂, [.tokenFetch])
  else
    let target := parseTarget ctx.toAddr
    match replyToId with
    | none =>
        if env.sendOk then
          ({ messageId := some env.resultId, timestamp := some env.resultTs },
            tr₂, [.tokenFetch, .activeSend target.1 target.2 ctx.text])
        else
          ({ error := some "API Error" }, tr₂,
            [.tokenFetch, .activeSend target.1 target.2 ctx.text])
    | some rid =>
        if env.sendOk then
          ({ messageId := some env.resultId, timestamp := some env.resultTs },
            recordMessageReply now tr₂ rid,
            [.tokenFetch, .passiveSend target.1 target.2 ctx.text rid])
        else
          ({ error := some "API Error" }, tr₂,
            [.tokenFetch, .passiveSend target.1 target.2 ctx.text rid])

/-- src/outbound.ts lines 200-293: `sendText`.  The limiter stage: if
`replyToId` is truthy, `checkMessageReplyLimit` runs first; when not allowed
with fallback set, `replyToId` is cleared and the call continues as an
active send; when not allowed without fallback, the error result is returned
at once.  The rest of the body is `sendTextResume`. -/
def sendText (tr : ReplyTracker) (now : Int) (ctx : OutboundContextM)
    (env : RestEnv) : OutboundResultM × ReplyTracker × List RestAction :=
  match jsStr? ctx.replyToId with
  | none => sendTextResume tr now ctx env none
  | some rid =>
      let check := checkMessageReplyLimit now tr rid
      if check.1.allowed then sendTextResume check.2 now ctx env (some rid)
      else if check.1.shouldFallbackToProactive then
        sendTextResume check.2 now ctx env none
      else ({ error := some "reply rate limited" }, check.2, [])

theorem keysNodup_cons_iff {κ α : Type} (hd : κ × α) (tl : List (κ × α)) :
    keysNodup (hd :: tl) ↔ hd.1 ∉ tl.map Prod.fst ∧ keysNodup tl := by
  simp [keysNodup]

theorem assocGet_filter_of_nodup {κ α : Type} [DecidableEq κ]
    (m : List (κ × α)) (p : κ × α → Bool) (k : κ) (h : keysNodup m) :
    assocGet (m.filter p) k =
      (assocGet m k).bind (fun v => if p (k, v) then some v else none) := by
  induction m with
  | nil => simp [assocGet]
  | cons hd tl ih =>
    obtain ⟨k₂, v₂⟩ := hd
    have hcons := (keysNodup_cons_iff (k₂, v₂) tl).mp h
    by_cases hk : k = k₂
    · subst hk
      by_cases hp : p (k, v₂)
      · simp [List.filter_cons, hp, assocGet]
      · have hnone : assocGet (tl.filter p) k = none := by
          rw [assocGet_eq_none_iff]
          intro hmem
          exact hcons.1 ((List.Sublist.map Prod.fst (List.filter_sublist tl)).mem hmem)
        simp [List.filter_cons, hp, assocGet, hnone]
    · by_cases hp : p (k₂, v₂) <;>
        simp [List.filter_cons, hp, assocGet, hk, ih hcons.2]

theorem checkMessageReplyLimit_snd (now : Int) (tr : ReplyTracker)
    (messageId : String) :
    (checkMessageReplyLimit now tr messageId).2 = pruneIfOversize now tr := by
  unfold checkMessageReplyLimit
  cases assocGet tr messageId with
  | none => rfl
  | some r =>
    by_cases h : now - r.firstReplyAt > MESSAGE_REPLY_TTL
    · simp [h]
    · by_cases h₂ : MESSAGE_REPLY_LIMIT - r.count ≤ 0 <;> simp [h, h₂]

theorem assocGet_pruneIfOversize_of_some (now : Int) (tr : ReplyTracker)
    (m : String) (r : MessageReplyRecord) (h : keysNodup tr)
    (hget : assocGet (pruneIfOversize now tr) m = some r) :
    assocGet tr m = some r := by
  unfold pruneIfOversize at hget
  by_cases hlen : tr.length > 10000
  · simp only [hlen, if_pos] at hget
    rw [assocGet_filter_of_nodup tr _ m h] at hget
    cases hg : assocGet tr m with
    | none => rw [hg] at hget; simp at hget
    | some v =>
      rw [hg] at hget
      simp at hget
      rcases hget with ⟨-, rfl⟩
      rfl
  · simpa [hlen] using hget

/-- C8 -- an active `sendText` call (no `replyToId`, or `replyToId` cleared
by the limiter fallback) whose text is empty after trimming returns an error
result immediately and performs no REST call: no token fetch, no HTTP
request, and no reply-count change (no tracker record is created or
modified; the limiter check may at most delete already-expired records). -/
theorem sendText_empty_active_fails_without_rest
    (tr : ReplyTracker) (now : Int) (ctx : OutboundContextM) (env : RestEnv)
    (hnodup : keysNodup tr)
    (hempty : trimEmpty ctx.text = true)
    (hactive : jsStr? ctx.replyToId = none ∨
      ∃ rid, jsStr? ctx.replyToId = some rid ∧
        (checkMessageReplyLimit now tr rid).1.allowed = false ∧
        (checkMessageReplyLimit now tr rid).1.shouldFallbackToProactive = true) :
    (sendText tr now ctx env).1.error.isSome = true ∧
    (sendText tr now ctx env).2.2 = [] ∧
    (∀ m r, assocGet (sendText tr now ctx env).2.1 m = some r →
      assocGet tr m = some r) := by
  rcases hactive with hnone | ⟨rid, hrid, hnotallowed, hfb⟩
  · have : sendText tr now ctx env =
        ({ error := some "主动消息必须有内容 (--message 参数不能为空)" }, tr, []) := by
      unfold sendText
      rw [hnone]
      simp [sendTextResume, hempty]
    rw [this]
    exact ⟨rfl, rfl, fun m r h => h⟩
  · have : sendText tr now ctx env =
        ({ error := some "主动消息必须有内容 (--message 参数不能为空)" },
          (checkMessageReplyLimit now tr rid).2, []) := by
      unfold sendText
      rw [hrid]
      simp [hnotallowed, hfb, sendTextResume, hempty]
    rw [this]
    refine ⟨rfl, rfl, fun m r h => ?_⟩
    rw [checkMessageReplyLimit_snd] at h
    exact assocGet_pruneIfOversize_of_some now tr m r hnodup h

/-- Witness for C8: a fallback-to-active call with whitespace-only text on a
tracker whose record for "m" has exhausted its quota fails with no action. -/
theorem sendText_empty_active_fails_without_rest_witness :
    (sendText [("m", ⟨4, 0⟩)] 1000
        { toAddr := "group:g1", text := "  ", replyToId := some "m",
          account := { appId := "app", clientSecret := "sec" } }
        { tokenOk := true, sendOk := true, resultId := "id1", resultTs := 7 }).1.error.isSome
      = true ∧
    (sendText [("m", ⟨4, 0⟩)] 1000
        { toAddr := "group:g1", text := "  ", replyToId := some "m",
          account := { appId := "app", clientSecret := "sec" } }
        { tokenOk := true, sendOk := true, resultId := "id1", resultTs := 7 }).2.2 = [] := by
  have h := sendText_empty_active_fails_without_rest [("m", ⟨4, 0⟩)] 1000
    { toAddr := "group:g1", text := "  ", replyToId := some "m",
      account := { appId := "app", clientSecret := "sec" } }
    { tokenOk := true, sendOk := true, resultId := "id1", resultTs := 7 }
    (by simp [keysNodup])
    (by decide)
    (Or.inr ⟨"m", by decide, by decide, by decide⟩)
  exact ⟨h.1, h.2.1⟩

/-! ## C1: the passive-reply quota over whole call traces -/

/-- Predicate selecting the passive-send action replying to message `m`. -/
def RestAction.isPassiveTo (m : String) : RestAction → Bool
  | .passiveSend _ _ _ rid => decide (rid = m)
  | _ => false

/-- A call outcome counts as a successful passive reply to `m` when the call
returned without error and issued a passive send carrying `msg_id = m`. -/
def isPassiveSuccess (m : String) (res : OutboundResultM)
    (acts : List RestAction) : Bool :=
  res.error.isNone && acts.any (RestAction.isPassiveTo m)

/-- One `sendText` invocation of a trace: its wallclock time, its arguments
and the REST-plane outcomes for it. -/
structure SendEvent where
  now : Int
  ctx : OutboundContextM
  env : RestEnv
  deriving Repr

/-- Run a list of `sendText` invocations against the shared reply tracker,
collecting each invocation together with its result and issued REST calls. -/
def runSendTrace (tr : ReplyTracker) :
    List SendEvent → ReplyTracker × List (SendEvent × OutboundResultM × List RestAction)
  | [] => (tr, [])
  | e :: rest =>
      let step := sendText tr e.now e.ctx e.env
      let restRun := runSendTrace step.2.1 rest
      (restRun.1, (e, step.1, step.2.2) :: restRun.2)

/-- Times of the successful passive replies to `m` in a trace output. -/
def passiveSuccessTimes (m : String)
    (outs : List (SendEvent × OutboundResultM × List RestAction)) : List Int :=
  (outs.filter (fun o => isPassiveSuccess m o.2.1 o.2.2)).map (fun o => o.1.now)

theorem assocGet_pruneIfOversize_of_none (now : Int) (tr : ReplyTracker)
    (m : String) (hget : assocGet tr m = none) :
    assocGet (pruneIfOversize now tr) m = none := by
  unfold pruneIfOversize
  by_cases hlen : tr.length > 10000
  · simp only [hlen, if_pos]
    rw [assocGet_eq_none_iff] at hget ⊢
    intro hmem
    exact hget ((List.Sublist.map Prod.fst (List.filter_sublist tr)).mem hmem)
  · simpa [hlen] using hget

theorem assocGet_pruneIfOversize_of_live (now : Int) (tr : ReplyTracker)
    (m : String) (r : MessageReplyRecord) (hnodup : keysNodup tr)
    (hget : assocGet tr m = some r)
    (hlive : ¬ (now - r.firstReplyAt > MESSAGE_REPLY_TTL)) :
    assocGet (pruneIfOversize now tr) m = some r := by
  unfold pruneIfOversize
  by_cases hlen : tr.length > 10000
  · simp only [hlen, if_pos]
    rw [assocGet_filter_of_nodup tr _ m hnodup, hget]
    simp [hlive]
    omega
  · simpa [hlen] using hget

theorem assocGet_pruneIfOversize_cases (now : Int) (tr : ReplyTracker)
    (m : String) (hnodup : keysNodup tr) :
    assocGet (pruneIfOversize now tr) m = assocGet tr m ∨
      (∃ r, assocGet tr m = some r ∧ now - r.firstReplyAt > MESSAGE_REPLY_TTL ∧
        assocGet (pruneIfOversize now tr) m = none) := by
  cases hget : assocGet tr m with
  | none => exact Or.inl (assocGet_pruneIfOversize_of_none now tr m hget)
  | some r =>
    by_cases hlive : now - r.firstReplyAt > MESSAGE_REPLY_TTL
    · by_cases hlen : tr.length > 10000
      · refine Or.inr ⟨r, rfl, hlive, ?_⟩
        unfold pruneIfOversize
        simp only [hlen, if_pos]
        rw [assocGet_filter_of_nodup tr _ m hnodup, hget]
        simp
        omega
      · exact Or.inl (by unfold pruneIfOversize; simp [hlen, hget])
    · exact Or.inl (assocGet_pruneIfOversize_of_live now tr m r hnodup hget hlive)

theorem keysNodup_pruneIfOversize (now : Int) (tr : ReplyTracker)
    (h : keysNodup tr) : keysNodup (pruneIfOversize now tr) := by
  unfold pruneIfOversize
  by_cases hlen : tr.length > 10000
  · simp only [hlen, if_pos]
    exact keysNodup_filter tr _ h
  · simpa [hlen] using h

theorem keysNodup_recordMessageReply (now : Int) (tr : ReplyTracker)
    (mid : String) (h : keysNodup tr) :
    keysNodup (recordMessageReply now tr mid) := by
  cases hg : assocGet tr mid with
  | none =>
    simp only [recordMessageReply, hg]
    exact keysNodup_assocSet tr mid _ h
  | some r =>
    simp only [recordMessageReply, hg]
    split
    · exact keysNodup_assocSet tr mid _ h
    · exact keysNodup_assocSet tr mid _ h

theorem assocGet_recordMessageReply_ne (now : Int) (tr : ReplyTracker)
    (rid m : String) (hne : m ≠ rid) :
    assocGet (recordMessageReply now tr rid) m = assocGet tr m := by
  cases hg : assocGet tr rid with
  | none =>
    simp only [recordMessageReply, hg]
    exact assocGet_assocSet_ne tr rid m _ hne
  | some r =>
    simp only [recordMessageReply, hg]
    split
    · exact assocGet_assocSet_ne tr rid m _ hne
    · exact assocGet_assocSet_ne tr rid m _ hne

theorem assocGet_recordMessageReply_none (now : Int) (tr : ReplyTracker)
    (m : String) (h : assocGet tr m = none) :
    assocGet (recordMessageReply now tr m) m = some ⟨1, now⟩ := by
  simp only [recordMessageReply, h]
  exact assocGet_assocSet_self tr m _

theorem assocGet_recordMessageReply_live (now : Int) (tr : ReplyTracker)
    (m : String) (r : MessageReplyRecord) (h : assocGet tr m = some r)
    (hlive : ¬ (now - r.firstReplyAt > MESSAGE_REPLY_TTL)) :
    assocGet (recordMessageReply now tr m) m =
      some ⟨r.count + 1, r.firstReplyAt⟩ := by
  simp only [recordMessageReply, h]
  rw [if_neg hlive]
  exact assocGet_assocSet_self tr m _

theorem checkMessageReplyLimit_allowed_inversion (now : Int) (tr : ReplyTracker)
    (mid : String) (h : (checkMessageReplyLimit now tr mid).1.allowed = true) :
    assocGet tr mid = none ∨
      ∃ r, assocGet tr mid = some r ∧
        ¬ (now - r.firstReplyAt > MESSAGE_REPLY_TTL) ∧ r.count < 4 := by
  cases hg : assocGet tr mid with
  | none => exact Or.inl rfl
  | some r =>
    by_cases he : now - r.firstReplyAt > MESSAGE_REPLY_TTL
    · exfalso
      simp [checkMessageReplyLimit, hg, he] at h
    · by_cases hc : (4 : Int) ≤ r.count
      · exfalso
        simp [checkMessageReplyLimit, hg, he, MESSAGE_REPLY_LIMIT, hc] at h
      · exact Or.inr ⟨r, rfl, he, by omega⟩

theorem checkMessageReplyLimit_blocked_of_count (now : Int) (tr : ReplyTracker)
    (mid : String) (r : MessageReplyRecord)
    (hg : assocGet tr mid = some r) (hc : 4 ≤ r.count) :
    (checkMessageReplyLimit now tr mid).1.allowed = false ∧
    (checkMessageReplyLimit now tr mid).1.shouldFallbackToProactive = true := by
  by_cases he : now - r.firstReplyAt > MESSAGE_REPLY_TTL
  · constructor <;> simp [checkMessageReplyLimit, hg, he]
  · constructor <;> simp [checkMessageReplyLimit, hg, he, MESSAGE_REPLY_LIMIT, hc]

theorem sendTextResume_none_tracker (tr₂ : ReplyTracker) (now : Int)
    (ctx : OutboundContextM) (env : RestEnv) :
    (sendTextResume tr₂ now ctx env none).2.1 = tr₂ := by
  unfold sendTextResume
  repeat' split
  all_goals first | rfl | simp_all

theorem sendTextResume_none_no_passive (tr₂ : ReplyTracker) (now : Int)
    (ctx : OutboundContextM) (env : RestEnv) (m : String) :
    (sendTextResume tr₂ now ctx env none).2.2.any (RestAction.isPassiveTo m)
      = false := by
  unfold sendTextResume
  repeat' split
  all_goals simp_all [RestAction.isPassiveTo]

theorem sendTextResume_some_cases (tr₂ : ReplyTracker) (now : Int)
    (ctx : OutboundContextM) (env : RestEnv) (rid : String) :
    ((sendTextResume tr₂ now ctx env (some rid)).1.error.isSome = true ∧
      (sendTextResume tr₂ now ctx env (some rid)).2.1 = tr₂) ∨
    (sendTextResume tr₂ now ctx env (some rid) =
      ({ messageId := some env.resultId, timestamp := some env.resultTs },
        recordMessageReply now tr₂ rid,
        [.tokenFetch,
         .passiveSend (parseTarget ctx.toAddr).1 (parseTarget ctx.toAddr).2
           ctx.text rid])) := by
  unfold sendTextResume
  have hfirst : ¬ ((some rid : Option String).isNone = true ∧ trimEmpty ctx.text = true) := by
    simp
  rw [if_neg hfirst]
  by_cases hcfg : ctx.account.appId = "" ∨ ctx.account.clientSecret = ""
  · rw [if_pos hcfg]
    exact Or.inl ⟨rfl, rfl⟩
  · rw [if_neg hcfg]
    by_cases htok : env.tokenOk
    · rw [if_neg (by simpa using htok)]
      by_cases hsend : env.sendOk
      · exact Or.inr (by simp [hsend])
      · exact Or.inl (by simp [hsend])
    · rw [if_pos (by simpa using htok)]
      exact Or.inl ⟨rfl, rfl⟩

/-- Per-invocation characterization of `sendText` with respect to a fixed
message id `m`: either the call is not a successful passive reply to `m` and
the tracker entry for `m` is unchanged (or deleted by the expiry prune), or
it is a successful passive reply to `m` and the entry is freshly created
with count 1 (when absent) or incremented within its TTL window (when
present, live and below the limit). -/
theorem sendText_step_cases (tr : ReplyTracker) (now : Int)
    (ctx : OutboundContextM) (env : RestEnv) (m : String)
    (hnodup : keysNodup tr) :
    (isPassiveSuccess m (sendText tr now ctx env).1 (sendText tr now ctx env).2.2 = false ∧
      (assocGet (sendText tr now ctx env).2.1 m = assocGet tr m ∨
       (∃ r, assocGet tr m = some r ∧ now - r.firstReplyAt > MESSAGE_REPLY_TTL ∧
         assocGet (sendText tr now ctx env).2.1 m = none))) ∨
    (isPassiveSuccess m (sendText tr now ctx env).1 (sendText tr now ctx env).2.2 = true ∧
      ((assocGet tr m = none ∧
          assocGet (sendText tr now ctx env).2.1 m = some ⟨1, now⟩) ∨
       (∃ r, assocGet tr m = some r ∧ ¬ (now - r.firstReplyAt > MESSAGE_REPLY_TTL) ∧
         r.count < 4 ∧
         assocGet (sendText tr now ctx env).2.1 m = some ⟨r.count + 1, r.firstReplyAt⟩))) := by
  cases hrid : jsStr? ctx.replyToId with
  | none =>
    have hs : sendText tr now ctx env = sendTextResume tr now ctx env none := by
      simp [sendText, hrid]
    left
    rw [hs]
    constructor
    · simp only [isPassiveSuccess, sendTextResume_none_no_passive, Bool.and_false]
    · left
      rw [sendTextResume_none_tracker]
  | some rid =>
    cases hall : (checkMessageReplyLimit now tr rid).1.allowed with
    | true =>
      have hs : sendText tr now ctx env =
          sendTextResume (pruneIfOversize now tr) now ctx env (some rid) := by
        rw [← checkMessageReplyLimit_snd now tr rid]
        simp [sendText, hrid, hall]
      rcases sendTextResume_some_cases (pruneIfOversize now tr) now ctx env rid with
        ⟨herr, htr⟩ | heq
      · left
        rw [hs]
        constructor
        · simp only [isPassiveSuccess]
          rcases Option.isSome_iff_exists.mp herr with ⟨msg, hmsg⟩
          simp [hmsg]
        · rw [htr]
          exact assocGet_pruneIfOversize_cases now tr m hnodup
      · by_cases hm : rid = m
        · subst hm
          right
          rw [hs, heq]
          constructor
          · simp [isPassiveSuccess, RestAction.isPassiveTo]
          · rcases checkMessageReplyLimit_allowed_inversion now tr rid hall with
              hnone | ⟨r, hg, hlive, hcount⟩
            · left
              exact ⟨hnone, assocGet_recordMessageReply_none now _ rid
                (assocGet_pruneIfOversize_of_none now tr rid hnone)⟩
            · right
              exact ⟨r, hg, hlive, hcount,
                assocGet_recordMessageReply_live now _ rid r
                  (assocGet_pruneIfOversize_of_live now tr rid r hnodup hg hlive) hlive⟩
        · left
          rw [hs, heq]
          constructor
          · simp [isPassiveSuccess, RestAction.isPassiveTo, hm]
          · rw [show (({ messageId := some env.resultId, timestamp := some env.resultTs },
                recordMessageReply now (pruneIfOversize now tr) rid,
                [RestAction.tokenFetch,
                 RestAction.passiveSend (parseTarget ctx.toAddr).1
                   (parseTarget ctx.toAddr).2 ctx.text rid]) :
                 OutboundResultM × ReplyTracker × List RestAction).2.1 =
               recordMessageReply now (pruneIfOversize now tr) rid from rfl]
            rw [assocGet_recordMessageReply_ne now _ rid m (fun h => hm h.symm)]
            exact assocGet_pruneIfOversize_cases now tr m hnodup
    | false =>
      cases hfb : (checkMessageReplyLimit now tr rid).1.shouldFallbackToProactive with
      | true =>
        have hs : sendText tr now ctx env =
            sendTextResume (pruneIfOversize now tr) now ctx env none := by
          rw [← checkMessageReplyLimit_snd now tr rid]
          simp [sendText, hrid, hall, hfb]
        left
        rw [hs]
        constructor
        · simp only [isPassiveSuccess, sendTextResume_none_no_passive, Bool.and_false]
        · rw [sendTextResume_none_tracker]
          exact assocGet_pruneIfOversize_cases now tr m hnodup
      | false =>
        have hs : sendText tr now ctx env =
            ({ error := some "reply rate limited" }, pruneIfOversize now tr, []) := by
          rw [← checkMessageReplyLimit_snd now tr rid]
          simp [sendText, hrid, hall, hfb]
        left
        rw [hs]
        constructor
        · simp [isPassiveSuccess]
        · exact assocGet_pruneIfOversize_cases now tr m hnodup

/-- The tracker stays a well-formed map across any `sendText` invocation. -/
theorem keysNodup_sendText (tr : ReplyTracker) (now : Int)
    (ctx : OutboundContextM) (env : RestEnv) (hnodup : keysNodup tr) :
    keysNodup (sendText tr now ctx env).2.1 := by
  have hprune := keysNodup_pruneIfOversize now tr hnodup
  cases hrid : jsStr? ctx.replyToId with
  | none =>
    have hs : sendText tr now ctx env = sendTextResume tr now ctx env none := by
      simp [sendText, hrid]
    rw [hs, sendTextResume_none_tracker]
    exact hnodup
  | some rid =>
    cases hall : (checkMessageReplyLimit now tr rid).1.allowed with
    | true =>
      have hs : sendText tr now ctx env =
          sendTextResume (pruneIfOversize now tr) now ctx env (some rid) := by
        rw [← checkMessageReplyLimit_snd now tr rid]
        simp [sendText, hrid, hall]
      rw [hs]
      rcases sendTextResume_some_cases (pruneIfOversize now tr) now ctx env rid with
        ⟨-, htr⟩ | heq
      · rw [htr]
        exact hprune
      · rw [heq]
        exact keysNodup_recordMessageReply now _ rid hprune
    | false =>
      cases hfb : (checkMessageReplyLimit now tr rid).1.shouldFallbackToProactive with
      | true =>
        have hs : sendText tr now ctx env =
            sendTextResume (pruneIfOversize now tr) now ctx env none := by
          rw [← checkMessageReplyLimit_snd now tr rid]
          simp [sendText, hrid, hall, hfb]
        rw [hs, sendTextResume_none_tracker]
        exact hprune
      | false =>
        have hs : sendText tr now ctx env =
            ({ error := some "reply rate limited" }, pruneIfOversize now tr, []) := by
          rw [← checkMessageReplyLimit_snd now tr rid]
          simp [sendText, hrid, hall, hfb]
        rw [hs]
        exact hprune

/-- Invariant tying the tracker record for `m` to the passive successes
`S` (their times) observed so far; `T` is a lower bound on all future event
times (every time in `S` is below `T`, and the record, if any, was created
no later than `T`). -/
def ReplyQuotaInv (m : String) (tr : ReplyTracker) (S : List Int) (T : Int) : Prop :=
  match assocGet tr m with
  | none => ∀ t ∈ S, t < T
  | some r =>
      r.count ≤ 4 ∧ r.firstReplyAt ≤ T ∧
      ((S.filter (fun t => decide (r.firstReplyAt ≤ t))).length : Int) = r.count ∧
      (∀ t ∈ S, t ≤ T) ∧
      (∀ t ∈ S, r.firstReplyAt ≤ t → t - r.firstReplyAt ≤ MESSAGE_REPLY_TTL)

theorem replyQuotaInv_step (m : String) (tr : ReplyTracker) (S : List Int)
    (T : Int) (e : SendEvent) (hnodup : keysNodup tr)
    (hinv : ReplyQuotaInv m tr S T) (hT : T ≤ e.now) :
    ReplyQuotaInv m (sendText tr e.now e.ctx e.env).2.1
      (S ++ (if isPassiveSuccess m (sendText tr e.now e.ctx e.env).1
                  (sendText tr e.now e.ctx e.env).2.2 then [e.now] else []))
      e.now := by
  rcases sendText_step_cases tr e.now e.ctx e.env m hnodup with
    ⟨hsuc, hcase⟩ | ⟨hsuc, hcase⟩
  · rw [hsuc]
    simp only [Bool.false_eq_true, if_false, List.append_nil]
    rcases hcase with heq | ⟨r, hg, hexp, hnone⟩
    · unfold ReplyQuotaInv at hinv ⊢
      rw [heq]
      cases hgm : assocGet tr m with
      | none =>
        rw [hgm] at hinv
        intro t ht
        exact lt_of_lt_of_le (hinv t ht) hT
      | some r =>
        rw [hgm] at hinv
        exact ⟨hinv.1, le_trans hinv.2.1 hT, hinv.2.2.1,
          fun t ht => le_trans (hinv.2.2.2.1 t ht) hT, hinv.2.2.2.2⟩
    · unfold ReplyQuotaInv at hinv ⊢
      rw [hnone]
      rw [hg] at hinv
      intro t ht
      by_cases hft : r.firstReplyAt ≤ t
      · have hw := hinv.2.2.2.2 t ht hft
        omega
      · have hf := hinv.2.1
        omega
  · rw [hsuc]
    simp only [if_true, if_pos]
    rcases hcase with ⟨hgnone, hgnew⟩ | ⟨r, hg, hlive, hcount, hgnew⟩
    · unfold ReplyQuotaInv at hinv ⊢
      rw [hgnone] at hinv
      rw [hgnew]
      dsimp only
      have hlt : ∀ t ∈ S, t < e.now := fun t ht => lt_of_lt_of_le (hinv t ht) hT
      have hfS : S.filter (fun t => decide (e.now ≤ t)) = [] := by
        rw [List.filter_eq_nil_iff]
        intro t ht
        simp only [decide_eq_true_eq]
        have := hlt t ht
        omega
      refine ⟨by norm_num, le_refl _, ?_, ?_, ?_⟩
      · simp only [List.filter_append, hfS, List.nil_append]
        simp
      · intro t ht
        rcases List.mem_append.mp ht with h | h
        · exact le_of_lt (hlt t h)
        · simp at h
          omega
      · intro t ht hft
        rcases List.mem_append.mp ht with h | h
        · have := hlt t h
          omega
        · simp at h
          subst h
          simp only [MESSAGE_REPLY_TTL]
          omega
    · unfold ReplyQuotaInv at hinv ⊢
      rw [hg] at hinv
      rw [hgnew]
      dsimp only
      obtain ⟨hc4, hfT, hlen, hle, hwin⟩ := hinv
      have hfnow : r.firstReplyAt ≤ e.now := le_trans hfT hT
      have hfsingle : List.filter (fun t => decide (r.firstReplyAt ≤ t)) [e.now]
          = [e.now] := by
        simp [hfnow]
      refine ⟨by omega, hfnow, ?_, ?_, ?_⟩
      · simp only [List.filter_append, List.length_append, hfsingle]
        push_cast
        simp only [List.length_singleton]
        omega
      · intro t ht
        rcases List.mem_append.mp ht with h | h
        · exact le_trans (hle t h) hT
        · simp at h
          omega
      · intro t ht hft
        rcases List.mem_append.mp ht with h | h
        · exact hwin t h hft
        · simp at h
          subst h
          omega

theorem passiveSuccessTimes_cons (m : String) (e : SendEvent)
    (res : OutboundResultM) (acts : List RestAction)
    (outs : List (SendEvent × OutboundResultM × List RestAction)) :
    passiveSuccessTimes m ((e, res, acts) :: outs) =
      (if isPassiveSuccess m res acts then [e.now] else []) ++
        passiveSuccessTimes m outs := by
  unfold passiveSuccessTimes
  by_cases h : isPassiveSuccess m res acts <;> simp [List.filter_cons, h]

theorem runSendTrace_inv (m : String) (events : List SendEvent) :
    ∀ (tr : ReplyTracker) (S : List Int) (T : Int),
      keysNodup tr → ReplyQuotaInv m tr S T →
      events.Pairwise (fun a b => a.now ≤ b.now) →
      (∀ e ∈ events, T ≤ e.now) →
      keysNodup (runSendTrace tr events).1 ∧
      ∃ T₂, ReplyQuotaInv m (runSendTrace tr events).1
        (S ++ passiveSuccessTimes m (runSendTrace tr events).2) T₂ := by
  induction events with
  | nil =>
    intro tr S T h1 h2 _ _
    exact ⟨h1, T, by simpa [runSendTrace, passiveSuccessTimes] using h2⟩
  | cons e rest ih =>
    intro tr S T h1 h2 hpw hT
    have hTe : T ≤ e.now := hT e (by simp)
    have hstep := replyQuotaInv_step m tr S T e h1 h2 hTe
    have hnd := keysNodup_sendText tr e.now e.ctx e.env h1
    have hpw₂ := List.pairwise_cons.mp hpw
    have hrest := ih (sendText tr e.now e.ctx e.env).2.1
      (S ++ (if isPassiveSuccess m (sendText tr e.now e.ctx e.env).1
                  (sendText tr e.now e.ctx e.env).2.2 then [e.now] else []))
      e.now hnd hstep hpw₂.2 hpw₂.1
    have hrun : runSendTrace tr (e :: rest) =
        ((runSendTrace (sendText tr e.now e.ctx e.env).2.1 rest).1,
          (e, (sendText tr e.now e.ctx e.env).1,
            (sendText tr e.now e.ctx e.env).2.2) ::
            (runSendTrace (sendText tr e.now e.ctx e.env).2.1 rest).2) := rfl
    rw [hrun]
    obtain ⟨hndF, T₂, hinvF⟩ := hrest
    refine ⟨hndF, T₂, ?_⟩
    rw [passiveSuccessTimes_cons, ← List.append_assoc]
    exact hinvF

theorem foldr_min_le (l : List Int) (init : Int) :
    ∀ x ∈ l, l.foldr min init ≤ x := by
  induction l with
  | nil => simp
  | cons hd tl ih =>
    intro x hx
    rcases List.mem_cons.mp hx with h | h
    · subst h
      simp only [List.foldr_cons]
      exact min_le_left _ _
    · simp only [List.foldr_cons]
      exact le_trans (min_le_right _ _) (ih x h)

/-- Any passive send, regardless of the addressed message id. -/
def RestAction.isPassive : RestAction → Bool
  | .passiveSend _ _ _ _ => true
  | _ => false

theorem sendTextResume_none_no_passiveAll (tr₂ : ReplyTracker) (now : Int)
    (ctx : OutboundContextM) (env : RestEnv) :
    ∀ a ∈ (sendTextResume tr₂ now ctx env none).2.2, a.isPassive = false := by
  unfold sendTextResume
  repeat' split
  all_goals simp_all [RestAction.isPassive]

theorem sendTextResume_none_actions (tr₂ : ReplyTracker) (now : Int)
    (ctx : OutboundContextM) (env : RestEnv)
    (h₁ : trimEmpty ctx.text = false) (h₂ : ctx.account.appId ≠ "")
    (h₃ : ctx.account.clientSecret ≠ "") (h₄ : env.tokenOk = true) :
    (sendTextResume tr₂ now ctx env none).2.2 =
      [RestAction.tokenFetch,
       RestAction.activeSend (parseTarget ctx.toAddr).1
         (parseTarget ctx.toAddr).2 ctx.text] := by
  unfold sendTextResume
  rw [if_neg (by simp [h₁])]
  rw [if_neg (by simp [h₂, h₃])]
  rw [if_neg (by simp [h₄])]
  by_cases hsend : env.sendOk <;> simp [hsend]

/-- C1 -- passive-reply quota.  Part one: over any sequence of `sendText`
invocations (with nondecreasing wallclock times) starting from the empty
tracker, any reply record held for message id `m` counts exactly the
successful passive replies to `m` that happened inside its TTL window, and
that count never exceeds 4.  Part two: a `sendText` call replying to `m`
while the record already holds `count ≥ 4` issues no passive REST call at
all and, when the call has non-empty text, a configured account and a
successful token fetch, issues exactly a token fetch followed by an active
(proactive) send. -/
theorem sendText_passive_reply_quota :
    (∀ (events : List SendEvent) (m : String),
        events.Pairwise (fun a b => a.now ≤ b.now) →
        ∀ r, assocGet (runSendTrace [] events).1 m = some r →
          r.count ≤ 4 ∧
          (((passiveSuccessTimes m (runSendTrace [] events).2).filter
              (fun t => decide (r.firstReplyAt ≤ t) &&
                decide (t - r.firstReplyAt ≤ MESSAGE_REPLY_TTL))).length : Int)
            = r.count) ∧
    (∀ (tr : ReplyTracker) (now : Int) (ctx : OutboundContextM) (env : RestEnv)
        (m : String) (r : MessageReplyRecord),
        keysNodup tr → assocGet tr m = some r → 4 ≤ r.count →
        jsStr? ctx.replyToId = some m →
        (∀ a ∈ (sendText tr now ctx env).2.2, a.isPassive = false) ∧
        (trimEmpty ctx.text = false → ctx.account.appId ≠ "" →
          ctx.account.clientSecret ≠ "" → env.tokenOk = true →
          (sendText tr now ctx env).2.2 =
            [RestAction.tokenFetch,
             RestAction.activeSend (parseTarget ctx.toAddr).1
               (parseTarget ctx.toAddr).2 ctx.text])) := by
  constructor
  · intro events m hpw r hr
    have hinit : ReplyQuotaInv m ([] : ReplyTracker) []
        ((events.map (fun e => e.now)).foldr min 0) := by
      unfold ReplyQuotaInv
      simp [assocGet]
    obtain ⟨hnd, T₂, hinv⟩ := runSendTrace_inv m events [] []
      ((events.map (fun e => e.now)).foldr min 0) keysNodup_nil hinit hpw
      (fun e he => foldr_min_le _ 0 e.now (List.mem_map_of_mem _ he))
    rw [List.nil_append] at hinv
    unfold ReplyQuotaInv at hinv
    rw [hr] at hinv
    obtain ⟨hc4, hfT, hlen, hle, hwin⟩ := hinv
    refine ⟨hc4, ?_⟩
    have hcongr : (passiveSuccessTimes m (runSendTrace [] events).2).filter
          (fun t => decide (r.firstReplyAt ≤ t) &&
            decide (t - r.firstReplyAt ≤ MESSAGE_REPLY_TTL)) =
        (passiveSuccessTimes m (runSendTrace [] events).2).filter
          (fun t => decide (r.firstReplyAt ≤ t)) := by
      apply List.filter_congr
      intro t ht
      by_cases hft : r.firstReplyAt ≤ t
      · simp [hft, hwin t ht hft]
      · simp [hft]
    rw [hcongr]
    exact hlen
  · intro tr now ctx env m r hnodup hget hcount hrid
    have hblocked := checkMessageReplyLimit_blocked_of_count now tr m r hget hcount
    have hs : sendText tr now ctx env =
        sendTextResume (pruneIfOversize now tr) now ctx env none := by
      rw [← checkMessageReplyLimit_snd now tr m]
      simp [sendText, hrid, hblocked.1, hblocked.2]
    rw [hs]
    exact ⟨sendTextResume_none_no_passiveAll _ now ctx env,
      fun h₁ h₂ h₃ h₄ => sendTextResume_none_actions _ now ctx env h₁ h₂ h₃ h₄⟩

/-- Concrete fixtures for the C1 witness: four successful passive replies to
message id "m" at times 0-3, then a fifth attempt at time 4. -/
def c1WitnessCtx : OutboundContextM :=
  { toAddr := "abc", text := "hi", replyToId := some "m",
    account := { appId := "app", clientSecret := "sec" } }

/-- REST plane for the C1 witness: every call succeeds. -/
def c1WitnessEnv : RestEnv :=
  { tokenOk := true, sendOk := true, resultId := "resp", resultTs := 1 }

/-- The four successful passive replies of the C1 witness. -/
def c1WitnessEvents : List SendEvent :=
  [⟨0, c1WitnessCtx, c1WitnessEnv⟩, ⟨1, c1WitnessCtx, c1WitnessEnv⟩,
   ⟨2, c1WitnessCtx, c1WitnessEnv⟩, ⟨3, c1WitnessCtx, c1WitnessEnv⟩]

/-- Witness for C1: after four successful passive replies to "m" the record
holds count 4 matching the four in-window successes, and the fifth call
issues no passive REST call, only a token fetch and an active send. -/
theorem sendText_passive_reply_quota_witness :
    ((⟨4, 0⟩ : MessageReplyRecord).count ≤ 4 ∧
      (((passiveSuccessTimes "m" (runSendTrace [] c1WitnessEvents).2).filter
          (fun t => decide ((⟨4, 0⟩ : MessageReplyRecord).firstReplyAt ≤ t) &&
            decide (t - (⟨4, 0⟩ : MessageReplyRecord).firstReplyAt ≤
              MESSAGE_REPLY_TTL))).length : Int)
        = (⟨4, 0⟩ : MessageReplyRecord).count) ∧
    (∀ a ∈ (sendText (runSendTrace [] c1WitnessEvents).1 4 c1WitnessCtx
        c1WitnessEnv).2.2, a.isPassive = false) ∧
    (sendText (runSendTrace [] c1WitnessEvents).1 4 c1WitnessCtx
        c1WitnessEnv).2.2 =
      [RestAction.tokenFetch, RestAction.activeSend TargetType.c2c "abc" "hi"] := by
  have h := sendText_passive_reply_quota
  have ha := h.1 c1WitnessEvents "m" (by decide) ⟨4, 0⟩ (by decide)
  have hb := h.2 (runSendTrace [] c1WitnessEvents).1 4 c1WitnessCtx
    c1WitnessEnv "m" ⟨4, 0⟩ (by unfold keysNodup; decide) (by decide)
    (by decide) (by decide)
  refine ⟨⟨ha.1, ha.2⟩, hb.1, ?_⟩
  rw [hb.2 (by decide) (by decide) (by decide) (by decide)]
  decide

/-! ## Gateway handshake (src/gateway.ts lines 10-40 and 848-887; the
session-store gateway variant, unnamed/part_003 lines 12-42 and 1123-1162,
has the identical op-10 handler) -/

/-- src/gateway.ts lines 11-19: the intent bit constants. -/
def INTENTS_GUILDS : Nat := 2 ^ 0

/-- Bit `GUILD_MEMBERS = 1 << 1`. -/
def INTENTS_GUILD_MEMBERS : Nat := 2 ^ 1

/-- Bit `PUBLIC_GUILD_MESSAGES = 1 << 30`. -/
def INTENTS_PUBLIC_GUILD_MESSAGES : Nat := 2 ^ 30

/-- Bit `DIRECT_MESSAGE = 1 << 12`. -/
def INTENTS_DIRECT_MESSAGE : Nat := 2 ^ 12

/-- Bit `GROUP_AND_C2C = 1 << 25`. -/
def INTENTS_GROUP_AND_C2C : Nat := 2 ^ 25

/-- src/gateway.ts lines 21-40: the three intent levels, most privileged
first (only the bitmask field is modelled; name/description strings are
logging only). -/
def INTENT_LEVELS : List Nat :=
  [INTENTS_PUBLIC_GUILD_MESSAGES ||| INTENTS_DIRECT_MESSAGE ||| INTENTS_GROUP_AND_C2C,
   INTENTS_PUBLIC_GUILD_MESSAGES ||| INTENTS_GROUP_AND_C2C,
   INTENTS_PUBLIC_GUILD_MESSAGES ||| INTENTS_GUILD_MEMBERS]

/-- The two frames the op-10 (Hello) handler can send. -/
inductive GatewayFrame where
  | resume (token : String) (session_id : String) (seq : Int)
  | identify (token : String) (intents : Nat) (shard : Nat × Nat)
  deriving Repr, DecidableEq

/-- src/gateway.ts lines 848-876 (op-10 Hello handler): the frame sent
immediately on Hello, before the heartbeat timer is started.  `sessionId`
is tested with JS truthiness (`if (sessionId && lastSeq !== null)`), while
`lastSeq` is tested against null only, so a held sequence of 0 still
resumes. -/
def helloResponse (accessToken : String) (sessionId : Option String)
    (lastSeq : Option Int) (lastSuccessfulIntentLevel : Int)
    (intentLevelIndex : Nat) : GatewayFrame :=
  match jsStr? sessionId, lastSeq with
  | some sid, some seq => .resume ("QQBot " ++ accessToken) sid seq
  | _, _ =>
      let levelToUse : Int :=
        if lastSuccessfulIntentLevel ≥ 0 then lastSuccessfulIntentLevel
        else intentLevelIndex
      .identify ("QQBot " ++ accessToken)
        (INTENT_LEVELS.getD (min levelToUse.toNat (INTENT_LEVELS.length - 1)) 0)
        (0, 1)

/-- C2 -- on Hello, the gateway sends an op-6 Resume with the `QQBot`-tagged
token, session id and sequence exactly when it holds both a session id and a
last sequence; otherwise it sends an op-2 Identify with the token, shard
`[0,1]` and the intent bitmask of `INTENT_LEVELS[lastSuccessfulIntentLevel]`
when a successful level is known (`≥ 0`), else
`INTENT_LEVELS[intentLevelIndex]`.  The two index state variables never
exceed 2 in the gateway (the downgrade step is capped at the last level), so
the defensive `min` clamp in the source is the identity there. -/
theorem helloResponse_resume_or_identify
    (tok : String) (sessionId : Option String) (lastSeq : Option Int)
    (lastSucc : Int) (idx : Nat)
    (hidx : idx ≤ 2) (hsucc : lastSucc ≤ 2) :
    (∀ sid seq, jsStr? sessionId = some sid → lastSeq = some seq →
      helloResponse tok sessionId lastSeq lastSucc idx =
        .resume ("QQBot " ++ tok) sid seq) ∧
    ((jsStr? sessionId = none ∨ lastSeq = none) →
      helloResponse tok sessionId lastSeq lastSucc idx =
        .identify ("QQBot " ++ tok)
          (if 0 ≤ lastSucc then INTENT_LEVELS.getD lastSucc.toNat 0
           else INTENT_LEVELS.getD idx 0) (0, 1)) := by
  constructor
  · intro sid seq hsid hseq
    simp [helloResponse, hsid, hseq]
  · intro hmiss
    have hred : helloResponse tok sessionId lastSeq lastSucc idx =
        .identify ("QQBot " ++ tok)
          (INTENT_LEVELS.getD
            (min (if lastSucc ≥ 0 then lastSucc else (idx : Int)).toNat
              (INTENT_LEVELS.length - 1)) 0) (0, 1) := by
      rcases hmiss with h | h
      · unfold helloResponse
        rw [h]
      · unfold helloResponse
        rw [h]
        cases jsStr? sessionId <;> rfl
    rw [hred]
    by_cases hpos : 0 ≤ lastSucc
    · have h₁ : (if lastSucc ≥ 0 then lastSucc else (idx : Int)) = lastSucc := by
        simp [hpos]
      rw [h₁]
      have h₂ : min lastSucc.toNat (INTENT_LEVELS.length - 1) = lastSucc.toNat := by
        simp [INTENT_LEVELS]
        omega
      rw [h₂, if_pos hpos]
    · have h₁ : (if lastSucc ≥ 0 then lastSucc else (idx : Int)) = (idx : Int) := by
        simp
        omega
      rw [h₁]
      have h₂ : min ((idx : Int)).toNat (INTENT_LEVELS.length - 1) = idx := by
        simp [INTENT_LEVELS]
        omega
      rw [h₂, if_neg hpos]

/-- Witness for C2: with a stored session the Hello handler resumes; with no
session and no successful level it identifies at level 0 (the full bitmask
`PUBLIC_GUILD_MESSAGES ||| DIRECT_MESSAGE ||| GROUP_AND_C2C`). -/
theorem helloResponse_resume_or_identify_witness :
    helloResponse "tok" (some "S1") (some 17) 0 0 =
      .resume ("QQBot " ++ "tok") "S1" 17 ∧
    helloResponse "tok" none none (-1) 0 =
      .identify ("QQBot " ++ "tok") (2 ^ 30 + 2 ^ 12 + 2 ^ 25) (0, 1) := by
  constructor
  · exact (helloResponse_resume_or_identify "tok" (some "S1") (some 17) 0 0
      (by decide) (by decide)).1 "S1" 17 (by decide) (by decide)
  · have h := (helloResponse_resume_or_identify "tok" none none (-1) 0
      (by decide) (by decide)).2 (Or.inl (by decide))
    rw [h]
    decide

/-! ## Reply-pipeline watchdog (src/gateway.ts lines 398-412; the
session-store gateway variant, unnamed/part_003 lines 674-687, uses 60000) -/

/-- src/gateway.ts line 403: `const responseTimeout = 30000`. -/
def responseTimeout : Nat := 30000

/-- unnamed/part_003 line 678: `const responseTimeout = 60000` in the
session-store gateway variant. -/
def responseTimeoutSessionVariant : Nat := 60000

/-- src/gateway.ts lines 402-412 and 824-829: the watchdog of
`handleMessage`.  A timer fires `timeoutMs` after dispatch; if `hasResponse`
is still false (no `deliver`, no non-empty `onPartialReply` and no `onError`
callback has run yet) it rejects the race, and the catch block sends the
timeout error message to the originating target.  `firstResponseAt` is the
elapsed time at which the first such callback ran, `none` if none ever did.
The returned value is true iff the dispatch is abandoned and the timeout
error message is sent. -/
def watchdogAbandons (timeoutMs : Nat) (firstResponseAt : Option Nat) : Bool :=
  match firstResponseAt with
  | none => true
  | some t => decide (timeoutMs ≤ t)

/-- Counterexample for C9: a dispatch whose first callback arrives 45 s
after dispatch is within the claimed 60 s window, yet the shipped gateway
(src/gateway.ts) has already abandoned it and sent the timeout error,
because its watchdog constant is 30000 ms, not 60000 ms. -/
theorem responseTimeout_watchdog_counterexample :
    responseTimeout ≠ 60000 ∧ 45000 < 60000 ∧
    watchdogAbandons responseTimeout (some 45000) = true := by
  decide

/-- C9 amended -- every inbound reply-pipeline dispatch is guarded by a
30-second watchdog in the shipped gateway (src/gateway.ts), 60 seconds in
the session-store gateway variant (unnamed/part_003): the dispatch is
abandoned and a timeout error message is sent to the originating target
exactly when neither `deliver` nor `onPartialReply` (nor `onError`) fires
strictly within the respective window. -/
theorem responseTimeout_watchdog (firstResponseAt : Option Nat) :
    responseTimeout = 30000 ∧ responseTimeoutSessionVariant = 60000 ∧
    (watchdogAbandons responseTimeout firstResponseAt = true ↔
      ∀ t, firstResponseAt = some t → 30000 ≤ t) ∧
    (watchdogAbandons responseTimeoutSessionVariant firstResponseAt = true ↔
      ∀ t, firstResponseAt = some t → 60000 ≤ t) := by
  refine ⟨rfl, rfl, ?_, ?_⟩ <;>
  · cases firstResponseAt with
    | none => simp [watchdogAbandons]
    | some t => simp [watchdogAbandons, responseTimeout, responseTimeoutSessionVariant]

/-! ## markdownSupport resolution (src/config.ts lines 53-138) and message
body shapes (unnamed/part_005 lines 49-62 and 344-371) -/

/-- src/config.ts line 4: `DEFAULT_ACCOUNT_ID = "default"`. -/
def DEFAULT_ACCOUNT_ID : String := "default"

/-- src/config.ts lines 53-138, restricted to the `markdownSupport` field of
the returned `ResolvedQQBotAccount`: the default account reads the top-level
`channels.qqbot.markdownSupport` with `?? true` (line 80), a named account
reads `accounts[id].markdownSupport` with no default; the resolver returns
`accountConfig.markdownSupport` unchanged (line 134). -/
def resolveQQBotAccount_markdownSupport (accountId : Option String)
    (topLevel : Option Bool) (named : Option Bool) : Option Bool :=
  let resolvedAccountId := accountId.getD DEFAULT_ACCOUNT_ID
  if resolvedAccountId = DEFAULT_ACCOUNT_ID then some (topLevel.getD true)
  else named

/-- unnamed/part_005 lines 53-55: `initApiConfig` sets the module flag to
`options.markdownSupport === true`. -/
def initApiConfig_markdownSupport (opt : Option Bool) : Bool :=
  opt = some true

/-- The JSON body of a passive text message (the two shapes produced by
`buildMessageBody`). -/
structure MessageBody where
  msg_type : Nat
  content : Option String := none
  markdownContent : Option String := none
  msg_seq : Nat
  msg_id : Option String := none
  deriving Repr, DecidableEq

/-- unnamed/part_005 lines 349-371: `buildMessageBody`.  `markdown` mode
produces `msg_type 2` with `markdown.content`; plain mode produces
`msg_type 0` with `content`; `msg_id` is attached when truthy. -/
def buildMessageBody (markdownSupport : Bool) (content : String)
    (msgId : Option String) (msgSeq : Nat) : MessageBody :=
  if markdownSupport then
    { msg_type := 2, markdownContent := some content, msg_seq := msgSeq,
      msg_id := jsStr? msgId }
  else
    { msg_type := 0, content := some content, msg_seq := msgSeq,
      msg_id := jsStr? msgId }

/-- Counterexample for C7: the default account with `markdownSupport` unset
everywhere resolves the flag to `true` (config.ts line 80 applies `?? true`),
so its passive text bodies take the markdown shape `msg_type 2`, not the
claimed plain-text shape `msg_type 0`. -/
theorem markdownSupport_default_true_counterexample :
    resolveQQBotAccount_markdownSupport none none none = some true ∧
    initApiConfig_markdownSupport
      (resolveQQBotAccount_markdownSupport none none none) = true ∧
    (buildMessageBody
      (initApiConfig_markdownSupport
        (resolveQQBotAccount_markdownSupport none none none))
      "hello" (some "mid") 7).msg_type = 2 ∧
    (buildMessageBody
      (initApiConfig_markdownSupport
        (resolveQQBotAccount_markdownSupport none none none))
      "hello" (some "mid") 7).markdownContent = some "hello" := by
  decide

/-- C7 amended -- for named accounts (under `accounts`) an unset
`markdownSupport` resolves to `undefined`, which `initApiConfig` treats as
false, so every passive text body takes the plain shape
`(content, msg_type 0, msg_seq)`; for the default account an unset
`markdownSupport` resolves to `true` (config.ts applies `?? true` to the
top-level field), producing the markdown shape
`(markdown.content, msg_type 2, msg_seq)`.  The markdown shape is produced
exactly when the resolved flag is the value `true`. -/
theorem markdownSupport_resolution
    (id : String) (topLevel named : Option Bool) (content : String)
    (msgId : Option String) (msgSeq : Nat)
    (hid : id ≠ DEFAULT_ACCOUNT_ID) :
    (resolveQQBotAccount_markdownSupport (some id) topLevel named = named) ∧
    (buildMessageBody (initApiConfig_markdownSupport named) content msgId msgSeq =
      if named = some true then
        { msg_type := 2, markdownContent := some content, msg_seq := msgSeq,
          msg_id := jsStr? msgId }
      else
        { msg_type := 0, content := some content, msg_seq := msgSeq,
          msg_id := jsStr? msgId }) ∧
    (resolveQQBotAccount_markdownSupport none topLevel named =
      some (topLevel.getD true)) ∧
    (topLevel = none →
      buildMessageBody
        (initApiConfig_markdownSupport
          (resolveQQBotAccount_markdownSupport none topLevel named))
        content msgId msgSeq =
      { msg_type := 2, markdownContent := some content, msg_seq := msgSeq,
        msg_id := jsStr? msgId }) := by
  refine ⟨?_, ?_, ?_, ?_⟩
  · simp [resolveQQBotAccount_markdownSupport, hid]
  · by_cases h : named = some true <;>
      simp [buildMessageBody, initApiConfig_markdownSupport, h]
  · rfl
  · intro htop
    subst htop
    simp [buildMessageBody, initApiConfig_markdownSupport,
      resolveQQBotAccount_markdownSupport]

/-- Witness for the amended C7: a named account "acct" with the flag unset
resolves to `undefined` and yields the plain shape; the default account with
everything unset yields the markdown shape. -/
theorem markdownSupport_resolution_witness :
    resolveQQBotAccount_markdownSupport (some "acct") none none = none ∧
    buildMessageBody (initApiConfig_markdownSupport none) "hi" (some "m") 3 =
      { msg_type := 0, content := some "hi", msg_seq := 3, msg_id := some "m" } ∧
    buildMessageBody
      (initApiConfig_markdownSupport
        (resolveQQBotAccount_markdownSupport none none none)) "hi" (some "m") 3 =
      { msg_type := 2, markdownContent := some "hi", msg_seq := 3,
        msg_id := some "m" } := by
  have h := markdownSupport_resolution "acct" none none "hi" (some "m") 3
    (by decide)
  refine ⟨h.1, ?_, h.2.2.2 rfl⟩
  have h₂ := h.2.1
  simpa using h₂

/-! ## Token store (unnamed/part_005 lines 64-195) -/

/-- unnamed/part_005 line 64: the `cachedToken` cell. -/
structure CachedToken where
  token : String
  expiresAt : Int
  deriving Repr, DecidableEq

/-- Outcome of the token-endpoint POST, as the code distinguishes it:
network failure (line 132), unparsable body (line 166), or a parsed JSON
object with optional `access_token` and `expires_in` fields. -/
inductive TokenFetchResult where
  | netError (msg : String)
  | parseError (msg : String)
  | parsed (access_token : Option String) (expires_in : Option Int)
  deriving Repr, DecidableEq

/-- unnamed/part_005 lines 107-186: `doFetchToken`.  It POSTs
`(appId, clientSecret)` (the emitted third component records the request
body), then: thrown network/parse errors propagate with the cache untouched;
a parsed body with a falsy `access_token` throws `Failed to get
access_token` with the cache untouched; otherwise the token is cached with
`expiresAt = Date.now() + (expires_in ?? 7200) * 1000` (`nowAtCache` is that
`Date.now()`) and returned. -/
def doFetchToken (cached : Option CachedToken) (nowAtCache : Int)
    (appId clientSecret : String) (fetch : TokenFetchResult) :
    Except String String × Option CachedToken × List (String × String) :=
  let post := [(appId, clientSecret)]
  match fetch with
  | .netError msg =>
      (.error ("Network error getting access_token: " ++ msg), cached, post)
  | .parseError msg =>
      (.error ("Failed to parse access_token response: " ++ msg), cached, post)
  | .parsed atok ein =>
      match jsStr? atok with
      | none => (.error "Failed to get access_token", cached, post)
      | some tok => (.ok tok, some ⟨tok, nowAtCache + (ein.getD 7200) * 1000⟩, post)

/-- unnamed/part_005 lines 74-102: `getAccessToken`.  The cached token is
returned when `Date.now() < expiresAt − 5 min`; otherwise `doFetchToken`
runs.  (The singleflight promise-sharing only affects concurrent callers;
this models the sequential path where no fetch is already in flight.) -/
def getAccessToken (cached : Option CachedToken) (now nowAtCache : Int)
    (appId clientSecret : String) (fetch : TokenFetchResult) :
    Except String String × Option CachedToken × List (String × String) :=
  match cached with
  | some c =>
      if now < c.expiresAt - 5 * 60 * 1000 then (.ok c.token, cached, [])
      else doFetchToken cached nowAtCache appId clientSecret fetch
  | none => doFetchToken cached nowAtCache appId clientSecret fetch

/-- C4 -- `getAccessToken` returns the cached token (with no POST issued and
the cache unchanged) exactly when `now < expiresAt − 5 min`; otherwise it
POSTs `(appId, clientSecret)`, and a parsed response with a non-empty
`access_token` is returned and cached with
`expiresAt = nowAtCache + (expires_in ?? 7200) s`, while a response missing
`access_token` makes the call fail with an error propagated to the caller
and caches nothing (the stale cache cell is left as it was). -/
theorem getAccessToken_cache_contract
    (cached : Option CachedToken) (now nowAtCache : Int)
    (appId secret : String) (fetch : TokenFetchResult) :
    ((∃ c, cached = some c ∧ now < c.expiresAt - 5 * 60 * 1000) ↔
      (getAccessToken cached now nowAtCache appId secret fetch).2.2 = []) ∧
    (∀ c, cached = some c → now < c.expiresAt - 5 * 60 * 1000 →
      getAccessToken cached now nowAtCache appId secret fetch =
        (.ok c.token, cached, [])) ∧
    (¬ (∃ c, cached = some c ∧ now < c.expiresAt - 5 * 60 * 1000) →
      (getAccessToken cached now nowAtCache appId secret fetch).2.2 =
        [(appId, secret)] ∧
      (∀ tok ein, fetch = .parsed (some tok) ein → tok ≠ "" →
        getAccessToken cached now nowAtCache appId secret fetch =
          (.ok tok, some ⟨tok, nowAtCache + (ein.getD 7200) * 1000⟩,
            [(appId, secret)])) ∧
      (∀ ein, fetch = .parsed none ein →
        (getAccessToken cached now nowAtCache appId secret fetch).1 =
          .error "Failed to get access_token" ∧
        (getAccessToken cached now nowAtCache appId secret fetch).2.1 =
          cached)) := by
  have hjs : ∀ (tok : String), tok ≠ "" → jsStr? (some tok) = some tok := by
    intro tok htok
    cases tok with
    | mk data =>
      cases data with
      | nil => exact absurd rfl htok
      | cons c cs => rfl
  refine ⟨?_, ?_, ?_⟩
  · constructor
    · rintro ⟨c, hc, hfresh⟩
      subst hc
      simp only [getAccessToken]
      rw [if_pos hfresh]
    · intro hempty
      by_contra hnot
      push_neg at hnot
      have hpost : (getAccessToken cached now nowAtCache appId secret fetch).2.2 =
          [(appId, secret)] := by
        cases cached with
        | none =>
          cases fetch with
          | netError msg => rfl
          | parseError msg => rfl
          | parsed atok ein =>
            simp only [getAccessToken, doFetchToken]
            cases jsStr? atok <;> rfl
        | some c =>
          have hstale : ¬ (now < c.expiresAt - 5 * 60 * 1000) := by
            have := hnot c rfl
            omega
          rw [show getAccessToken (some c) now nowAtCache appId secret fetch =
            doFetchToken (some c) nowAtCache appId secret fetch from by
              simp only [getAccessToken]
              rw [if_neg hstale]]
          cases fetch with
          | netError msg => rfl
          | parseError msg => rfl
          | parsed atok ein =>
            simp only [doFetchToken]
            cases jsStr? atok <;> rfl
      rw [hpost] at hempty
      simp at hempty
  · intro c hc hfresh
    subst hc
    simp only [getAccessToken]
    rw [if_pos hfresh]
  · intro hstale
    push_neg at hstale
    have hfetch : getAccessToken cached now nowAtCache appId secret fetch =
        doFetchToken cached nowAtCache appId secret fetch := by
      cases cached with
      | none => rfl
      | some c =>
        have h₂ : ¬ (now < c.expiresAt - 5 * 60 * 1000) := by
          have := hstale c rfl
          omega
        simp only [getAccessToken]
        rw [if_neg h₂]
    rw [hfetch]
    refine ⟨?_, ?_, ?_⟩
    · cases fetch with
      | netError msg => rfl
      | parseError msg => rfl
      | parsed atok ein =>
        simp only [doFetchToken]
        cases jsStr? atok <;> rfl
    · intro tok ein hf htok
      subst hf
      simp [doFetchToken, hjs tok htok]
    · intro ein hf
      subst hf
      simp [doFetchToken, jsStr?]

/-- Witness for C4: a fresh cache is returned as is; a stale cache plus a
parsed response with a token refreshes the cache with the 7200 s default; a
response with no `access_token` errors and leaves the stale cache cell. -/
theorem getAccessToken_cache_contract_witness :
    getAccessToken (some ⟨"T0", 1000000⟩) 0 0 "app" "sec"
        (.parsed (some "T1") none) =
      (.ok "T0", some ⟨"T0", 1000000⟩, []) ∧
    getAccessToken (some ⟨"T0", 1000000⟩) 999999 1000001 "app" "sec"
        (.parsed (some "T1") none) =
      (.ok "T1", some ⟨"T1", 1000001 + 7200 * 1000⟩, [("app", "sec")]) ∧
    (getAccessToken (some ⟨"T0", 1000000⟩) 999999 1000001 "app" "sec"
        (.parsed none (some 30))).1 = .error "Failed to get access_token" ∧
    (getAccessToken (some ⟨"T0", 1000000⟩) 999999 1000001 "app" "sec"
        (.parsed none (some 30))).2.1 = some ⟨"T0", 1000000⟩ := by
  refine ⟨?_, ?_, ?_, ?_⟩
  · exact (getAccessToken_cache_contract (some ⟨"T0", 1000000⟩) 0 0 "app" "sec"
      (.parsed (some "T1") none)).2.1 ⟨"T0", 1000000⟩ rfl (by decide)
  · have h := ((getAccessToken_cache_contract (some ⟨"T0", 1000000⟩) 999999
      1000001 "app" "sec" (.parsed (some "T1") none)).2.2
      (by rintro ⟨c, hc, hlt⟩; cases hc; revert hlt; decide)).2.1
      "T1" none rfl (by decide)
    simpa using h
  · exact ((getAccessToken_cache_contract (some ⟨"T0", 1000000⟩) 999999
      1000001 "app" "sec" (.parsed none (some 30))).2.2
      (by rintro ⟨c, hc, hlt⟩; cases hc; revert hlt; decide)).2.2 (some 30) rfl
      |>.1
  · exact ((getAccessToken_cache_contract (some ⟨"T0", 1000000⟩) 999999
      1000001 "app" "sec" (.parsed none (some 30))).2.2
      (by rintro ⟨c, hc, hlt⟩; cases hc; revert hlt; decide)).2.2 (some 30) rfl
      |>.2

/-! ## Proactive (cron) sends (src/outbound.ts lines 302-330 and 535-571) -/

/-- src/outbound.ts lines 302-330: `sendProactiveMessage`: config check,
token fetch, target parse, then the active-send endpoint for the parsed
target kind.  For C2C and group targets the body builder
(`buildProactiveMessageBody`, unnamed/part_005 lines 454-471) throws on
empty/whitespace-only content before any request is made; the channel path
(`sendChannelMessage`) has no such check. -/
def sendProactiveMessage (account : ResolvedAccountM) (toAddr text : String)
    (env : RestEnv) : OutboundResultM × List RestAction :=
  if account.appId = "" ∨ account.clientSecret = "" then
    ({ error := some "QQBot not configured (missing appId or clientSecret)" }, [])
  else if ¬ env.tokenOk then
    ({ error := some "Failed to get access_token" }, [.tokenFetch])
  else
    let target := parseTarget toAddr
    if target.1 = .channel then
      if env.sendOk then
        ({ messageId := some env.resultId, timestamp := some env.resultTs },
          [.tokenFetch, .activeSend target.1 target.2 text])
      else
        ({ error := some "API Error" },
          [.tokenFetch, .activeSend target.1 target.2 text])
    else
      if trimEmpty text then
        ({ error := some "主动消息内容不能为空 (markdown.content is empty)" },
          [.tokenFetch])
      else if env.sendOk then
        ({ messageId := some env.resultId, timestamp := some env.resultTs },
          [.tokenFetch, .activeSend target.1 target.2 text])
      else
        ({ error := some "API Error" },
          [.tokenFetch, .activeSend target.1 target.2 text])

/-- The fields of a decoded `QQBOT_CRON` payload that `sendCronMessage`
reads. -/
structure CronPayload where
  targetType : String
  targetAddress : String
  content : String
  deriving Repr, DecidableEq

/-- The shape of `decodeCronPayload`'s result, as `sendCronMessage` branches
on it (src/outbound.ts lines 543-566).  `decodeCronPayload` itself lives in
src/utils/payload.ts, which is not among the captured sources; the dispatch
theorems quantify over this result value. -/
structure CronDecodeResult where
  isCronPayload : Bool
  error : Option String := none
  payload : Option CronPayload := none
  deriving Repr, DecidableEq

/-- src/outbound.ts lines 535-571: `sendCronMessage`, as a function of the
decode result for `message`: a recognized payload with a decode error
returns the error with no send; a decoded payload is sent proactively to
`group:<targetAddress>` for group targets and to `<targetAddress>`
otherwise, using the payload content (the `to` fallback argument unused);
anything else is sent unchanged to `to`.  (A recognized payload with neither
error nor payload — a shape a decoder never produces — would fall through to
the plain-text path, as in the source.) -/
def sendCronMessage (account : ResolvedAccountM) (toAddr message : String)
    (dec : CronDecodeResult) (env : RestEnv) :
    OutboundResultM × List RestAction :=
  if dec.isCronPayload then
    match jsStr? dec.error with
    | some e => ({ error := some ("Cron 载荷解码失败: " ++ e) }, [])
    | none =>
        match dec.payload with
        | some p =>
            sendProactiveMessage account
              (if p.targetType = "group" then "group:" ++ p.targetAddress
               else p.targetAddress) p.content env
        | none => sendProactiveMessage account toAddr message env
  else sendProactiveMessage account toAddr message env

/-- C10 -- `sendCronMessage` has three disjoint outcomes keyed on the decode
result of `message`: a decoded `QQBOT_CRON` payload is sent as a proactive
message to `group:<targetAddress>` when its `targetType` is `"group"` and to
`<targetAddress>` otherwise, with the payload content and ignoring the
fallback `to` argument; a recognized payload that failed to decode returns
an error result with no REST call; any other message is forwarded unchanged
as a proactive message to `to`. -/
theorem sendCronMessage_dispatch
    (account : ResolvedAccountM) (toAddr message : String)
    (dec : CronDecodeResult) (env : RestEnv) :
    (∀ p, dec.isCronPayload = true → jsStr? dec.error = none →
      dec.payload = some p →
      sendCronMessage account toAddr message dec env =
        sendProactiveMessage account
          (if p.targetType = "group" then "group:" ++ p.targetAddress
           else p.targetAddress) p.content env) ∧
    (∀ e, dec.isCronPayload = true → jsStr? dec.error = some e →
      (sendCronMessage account toAddr message dec env).1.error =
        some ("Cron 载荷解码失败: " ++ e) ∧
      (sendCronMessage account toAddr message dec env).2 = []) ∧
    (dec.isCronPayload = false →
      sendCronMessage account toAddr message dec env =
        sendProactiveMessage account toAddr message env) := by
  refine ⟨?_, ?_, ?_⟩
  · intro p hcron herr hp
    simp [sendCronMessage, hcron, herr, hp]
  · intro e hcron herr
    constructor <;> simp [sendCronMessage, hcron, herr]
  · intro hcron
    simp [sendCronMessage, hcron]

/-- Witness for C10: a decoded group payload goes to `group:g9` with the
payload content (the result equals the proactive send there, and the `to`
argument "fallback" is ignored); a decode failure returns the error with no
action; a plain message goes to `to` unchanged. -/
theorem sendCronMessage_dispatch_witness :
    sendCronMessage ⟨"app", "sec"⟩ "fallback" "QQBOT_CRON:xxx"
        ⟨true, none, some ⟨"group", "g9", "提醒"⟩⟩
        ⟨true, true, "id9", 5⟩ =
      ({ messageId := some "id9", timestamp := some 5 },
        [.tokenFetch, .activeSend TargetType.group "g9" "提醒"]) ∧
    (sendCronMessage ⟨"app", "sec"⟩ "fallback" "QQBOT_CRON:bad"
        ⟨true, some "bad base64", none⟩ ⟨true, true, "id9", 5⟩).2 = [] ∧
    sendCronMessage ⟨"app", "sec"⟩ "abc" "平安" ⟨false, none, none⟩
        ⟨true, true, "id9", 5⟩ =
      ({ messageId := some "id9", timestamp := some 5 },
        [.tokenFetch, .activeSend TargetType.c2c "abc" "平安"]) := by
  refine ⟨?_, ?_, ?_⟩
  · have h := (sendCronMessage_dispatch ⟨"app", "sec"⟩ "fallback"
      "QQBOT_CRON:xxx" ⟨true, none, some ⟨"group", "g9", "提醒"⟩⟩
      ⟨true, true, "id9", 5⟩).1 ⟨"group", "g9", "提醒"⟩ rfl rfl rfl
    rw [h]
    decide
  · exact ((sendCronMessage_dispatch ⟨"app", "sec"⟩ "fallback" "QQBOT_CRON:bad"
      ⟨true, some "bad base64", none⟩ ⟨true, true, "id9", 5⟩).2.1
      "bad base64" rfl rfl).2
  · have h := (sendCronMessage_dispatch ⟨"app", "sec"⟩ "abc" "平安"
      ⟨false, none, none⟩ ⟨true, true, "id9", 5⟩).2.2 rfl
    rw [h]
    decide

/-! ## msg_seq counter (unnamed/part_005 lines 217-245)

The tracker key type is the inbound message id, a JS string; the model is
generic over any decidable key type, which the algorithm never inspects
beyond equality. -/

/-- unnamed/part_005 line 223: `seqBaseTime = Math.floor(Date.now() / 1000)
% 100000000` — the process-start time in seconds, modulo 10^8. -/
def seqBaseOf (startupMs : Nat) : Nat := (startupMs / 1000) % 100000000

/-- The `msgSeqTracker` map: message id to current counter value. -/
abbrev MsgSeqState (κ : Type) := List (κ × Nat)

/-- unnamed/part_005 lines 229-245: `getNextMsgSeq`.  The counter for the
id is incremented (from 0 when absent); when the map then holds more than
1000 entries the first 500 keys in insertion order are deleted; the returned
sequence is `seqBaseTime + next`. -/
def getNextMsgSeq {κ : Type} [DecidableEq κ] (seqBaseTime : Nat)
    (st : MsgSeqState κ) (msgId : κ) : Nat × MsgSeqState κ :=
  let current := (assocGet st msgId).getD 0
  let next := current + 1
  let st₂ := assocSet st msgId next
  let st₃ := if st₂.length > 1000 then st₂.drop 500 else st₂
  (seqBaseTime + next, st₃)

/-- Run `getNextMsgSeq` over a list of message ids, collecting the returned
sequence numbers. -/
def runMsgSeq {κ : Type} [DecidableEq κ] (seqBaseTime : Nat) :
    MsgSeqState κ → List κ → MsgSeqState κ × List Nat
  | st, [] => (st, [])
  | st, k :: rest =>
      let step := getNextMsgSeq seqBaseTime st k
      let restRun := runMsgSeq seqBaseTime step.2 rest
      (restRun.1, step.1 :: restRun.2)

theorem length_assocSet_le {κ α : Type} [DecidableEq κ]
    (l : List (κ × α)) (k : κ) (v : α) :
    (assocSet l k v).length ≤ l.length + 1 := by
  induction l with
  | nil => simp [assocSet]
  | cons hd tl ih =>
    by_cases h : k = hd.1
    · simp [assocSet, h]
    · simp [assocSet, h]
      omega

theorem assocGet_drop_cases {κ α : Type} [DecidableEq κ]
    (l : List (κ × α)) (n : Nat) (k : κ) (h : keysNodup l) :
    assocGet (l.drop n) k = assocGet l k ∨ assocGet (l.drop n) k = none := by
  induction l generalizing n with
  | nil => right; cases n <;> rfl
  | cons hd tl ih =>
    cases n with
    | zero => left; rfl
    | succ n₂ =>
      have hcons := (keysNodup_cons_iff hd tl).mp h
      simp only [List.drop_succ_cons]
      by_cases hk : k = hd.1
      · subst hk
        right
        rw [assocGet_eq_none_iff]
        intro hmem
        exact hcons.1 ((List.Sublist.map Prod.fst (List.drop_sublist n₂ tl)).mem hmem)
      · rcases ih n₂ hcons.2 with h₂ | h₂
        · left
          rw [h₂]
          simp [assocGet, hk]
        · right
          exact h₂

theorem assocSet_of_get_none {κ α : Type} [DecidableEq κ]
    (l : List (κ × α)) (k : κ) (v : α) (h : assocGet l k = none) :
    assocSet l k v = l ++ [(k, v)] := by
  induction l with
  | nil => rfl
  | cons hd tl ih =>
    by_cases hk : k = hd.1
    · rw [show assocGet (hd :: tl) k = some hd.2 from by
        simp [assocGet, hk]] at h
      exact absurd h (by simp)
    · have htl : assocGet tl k = none := by
        simpa [assocGet, hk] using h
      simp [assocSet, hk, ih htl]

/-- C5 amended -- the msg_seq counter.  (i) every call returns
`seqBaseTime + (stored counter + 1)`; (ii) on a well-formed map, after the
call the entry either holds the incremented counter or has been evicted by
the over-1000 cleanup; (iii) a later call on a state whose entry still holds
a counter at least the incremented value (i.e. the entry survived, possibly
grew) returns a strictly larger sequence; (iv) the map size never exceeds
1000 after a call that starts at size at most 1000. -/
theorem getNextMsgSeq_behaviour {κ : Type} [DecidableEq κ] (b : Nat)
    (st st₂ : MsgSeqState κ) (m : κ) (hnodup : keysNodup st) :
    ((getNextMsgSeq b st m).1 = b + ((assocGet st m).getD 0 + 1)) ∧
    (assocGet (getNextMsgSeq b st m).2 m = some ((assocGet st m).getD 0 + 1) ∨
      assocGet (getNextMsgSeq b st m).2 m = none) ∧
    ((∃ c₂, assocGet st₂ m = some c₂ ∧ (assocGet st m).getD 0 + 1 ≤ c₂) →
      (getNextMsgSeq b st m).1 < (getNextMsgSeq b st₂ m).1) ∧
    (st.length ≤ 1000 → (getNextMsgSeq b st m).2.length ≤ 1000) := by
  refine ⟨rfl, ?_, ?_, ?_⟩
  · unfold getNextMsgSeq
    simp only []
    by_cases hlen : (assocSet st m ((assocGet st m).getD 0 + 1)).length > 1000
    · rw [if_pos hlen]
      have hnd₂ := keysNodup_assocSet st m ((assocGet st m).getD 0 + 1) hnodup
      rcases assocGet_drop_cases (assocSet st m ((assocGet st m).getD 0 + 1))
          500 m hnd₂ with h | h
      · left
        rw [h]
        exact assocGet_assocSet_self st m _
      · right
        exact h
    · rw [if_neg hlen]
      left
      exact assocGet_assocSet_self st m _
  · rintro ⟨c₂, hc₂, hge⟩
    have h₁ : (getNextMsgSeq b st m).1 = b + ((assocGet st m).getD 0 + 1) := rfl
    have h₂ : (getNextMsgSeq b st₂ m).1 = b + (c₂ + 1) := by
      unfold getNextMsgSeq
      rw [hc₂]
      rfl
    omega
  · intro hlen
    unfold getNextMsgSeq
    simp only []
    have hset := length_assocSet_le st m ((assocGet st m).getD 0 + 1)
    by_cases hbig : (assocSet st m ((assocGet st m).getD 0 + 1)).length > 1000
    · rw [if_pos hbig]
      simp only [List.length_drop]
      omega
    · rw [if_neg hbig]
      omega

/-- Witness for the amended C5: from a map holding counter 2 for id 7, a
call returns `base + 3`; a second call (entry preserved) returns `base + 4`,
strictly larger; size stays bounded. -/
theorem getNextMsgSeq_behaviour_witness :
    (getNextMsgSeq 100 ([(7, 2)] : MsgSeqState Nat) 7).1 = 103 ∧
    assocGet (getNextMsgSeq 100 ([(7, 2)] : MsgSeqState Nat) 7).2 7 = some 3 ∧
    (getNextMsgSeq 100 ([(7, 2)] : MsgSeqState Nat) 7).1 <
      (getNextMsgSeq 100 ([(7, 3)] : MsgSeqState Nat) 7).1 ∧
    (getNextMsgSeq 100 ([(7, 2)] : MsgSeqState Nat) 7).2.length ≤ 1000 := by
  have h := getNextMsgSeq_behaviour 100 ([(7, 2)] : MsgSeqState Nat)
    ([(7, 3)] : MsgSeqState Nat) 7 (by unfold keysNodup; decide)
  refine ⟨by rw [h.1]; decide, ?_, ?_, h.2.2.2 (by decide)⟩
  · rcases h.2.1 with h₂ | h₂
    · rw [h₂]; decide
    · exact absurd h₂ (by decide)
  · exact h.2.2.1 ⟨3, by decide, by decide⟩

theorem getNextMsgSeq_fresh {κ : Type} [DecidableEq κ] (b : Nat)
    (st : MsgSeqState κ) (m : κ) (h : assocGet st m = none) :
    getNextMsgSeq b st m =
      (b + 1, if st.length + 1 > 1000 then (st ++ [(m, 1)]).drop 500
              else st ++ [(m, 1)]) := by
  unfold getNextMsgSeq
  simp only [h, Option.getD_none, Nat.zero_add]
  rw [assocSet_of_get_none st m 1 h]
  simp [List.length_append]

theorem runMsgSeq_cons {κ : Type} [DecidableEq κ] (b : Nat)
    (st : MsgSeqState κ) (k : κ) (rest : List κ) :
    runMsgSeq b st (k :: rest) =
      ((runMsgSeq b (getNextMsgSeq b st k).2 rest).1,
        (getNextMsgSeq b st k).1 ::
          (runMsgSeq b (getNextMsgSeq b st k).2 rest).2) := rfl

theorem runMsgSeq_append {κ : Type} [DecidableEq κ] (b : Nat)
    (l₁ l₂ : List κ) : ∀ st : MsgSeqState κ,
    runMsgSeq b st (l₁ ++ l₂) =
      ((runMsgSeq b (runMsgSeq b st l₁).1 l₂).1,
        (runMsgSeq b st l₁).2 ++ (runMsgSeq b (runMsgSeq b st l₁).1 l₂).2) := by
  induction l₁ with
  | nil => intro st; simp [runMsgSeq]
  | cons k ks ih =>
    intro st
    simp only [List.cons_append, runMsgSeq_cons, ih]

theorem runMsgSeq_singleton {κ : Type} [DecidableEq κ] (b : Nat)
    (st : MsgSeqState κ) (k : κ) :
    runMsgSeq b st [k] =
      ((getNextMsgSeq b st k).2, [(getNextMsgSeq b st k).1]) := rfl

theorem runMsgSeq_fresh_state {κ : Type} [DecidableEq κ] (b : Nat)
    (ks : List κ) : ∀ st : MsgSeqState κ, ks.Nodup →
    (∀ k ∈ ks, assocGet st k = none) → st.length + ks.length ≤ 1000 →
    (runMsgSeq b st ks).1 = st ++ ks.map (fun k => (k, 1)) := by
  induction ks with
  | nil => intro st _ _ _; simp [runMsgSeq]
  | cons k rest ih =>
    intro st hnd hfresh hlen
    have hk := hfresh k (by simp)
    have hnotbig : ¬ (st.length + 1 > 1000) := by
      simp only [List.length_cons] at hlen
      omega
    rw [runMsgSeq_cons, getNextMsgSeq_fresh b st k hk]
    dsimp only
    rw [if_neg hnotbig]
    have hnd₂ := List.nodup_cons.mp hnd
    have hfresh₂ : ∀ k₂ ∈ rest, assocGet (st ++ [(k, 1)]) k₂ = none := by
      intro k₂ hk₂
      rw [assocGet_eq_none_iff]
      simp only [List.map_append, List.mem_append]
      rintro (hmem | hmem)
      · exact (assocGet_eq_none_iff st k₂).mp (hfresh k₂ (by simp [hk₂])) hmem
      · simp at hmem
        exact hnd₂.1 (hmem ▸ hk₂)
    have hlen₂ : (st ++ [(k, 1)]).length + rest.length ≤ 1000 := by
      simp only [List.length_append, List.length_cons, List.length_nil] at hlen ⊢
      omega
    rw [ih (st ++ [(k, 1)]) hnd₂.2 hfresh₂ hlen₂]
    simp

/-- The 999 distinct message ids 1..999 interleaved between the two calls
addressing message id 0 in the C5 counterexample. -/
def c5FreshKeys : List Nat := (List.range 999).map (fun i => i + 1)

/-- The C5 counterexample call trace: id 0, then the 999 fresh ids, then id
1000 (whose insertion pushes the map to 1001 entries, triggering the cleanup
that evicts the 500 oldest keys, id 0 among them), then id 0 again. -/
def c5Trace : List Nat := 0 :: (c5FreshKeys ++ [1000, 0])

theorem c5_fresh_nodup : c5FreshKeys.Nodup :=
  (List.nodup_range 999).map (fun a b h => by omega)

theorem c5_fresh_ne_zero : ∀ k ∈ c5FreshKeys, k ≠ 0 := by
  intro k hk
  simp only [c5FreshKeys, List.mem_map, List.mem_range] at hk
  obtain ⟨i, -, rfl⟩ := hk
  omega

theorem c5_fresh_length : c5FreshKeys.length = 999 := by
  simp [c5FreshKeys]

/-- Counterexample for C5: two successive calls to `getNextMsgSeq` for the
same message id 0 (the first and the last call of the trace) both return
`seqBaseTime + 1` — the second is not strictly greater — because the 1001st
distinct id triggers the cleanup that evicts the oldest 500 entries,
resetting the counter for id 0. -/
theorem getNextMsgSeq_not_strictly_increasing_counterexample :
    c5Trace.head? = some 0 ∧ c5Trace.getLast? = some 0 ∧
    (runMsgSeq 0 ([] : MsgSeqState Nat) c5Trace).2.head? = some 1 ∧
    (runMsgSeq 0 ([] : MsgSeqState Nat) c5Trace).2.getLast? = some 1 := by
  have h0 : getNextMsgSeq 0 ([] : MsgSeqState Nat) 0 = (1, [(0, 1)]) := by
    rw [getNextMsgSeq_fresh 0 [] 0 rfl]
    simp
  have hA : (runMsgSeq 0 ([(0, 1)] : MsgSeqState Nat) c5FreshKeys).1 =
      [(0, 1)] ++ c5FreshKeys.map (fun k => (k, 1)) := by
    apply runMsgSeq_fresh_state 0 c5FreshKeys [(0, 1)] c5_fresh_nodup
    · intro k hk
      simp [assocGet, c5_fresh_ne_zero k hk]
    · simp [c5_fresh_length]
  have hkeysA : ([(0, 1)] ++ c5FreshKeys.map (fun k => (k, 1))).map Prod.fst =
      0 :: c5FreshKeys := by
    simp only [List.map_append, List.map_map]
    rw [show Prod.fst ∘ (fun k : Nat => (k, (1 : Nat))) = fun k => k from rfl]
    simp
  have hlenA : ([(0, 1)] ++ c5FreshKeys.map (fun k => (k, 1))).length = 1000 := by
    simp [c5_fresh_length]
  have h1000 : assocGet ([(0, 1)] ++ c5FreshKeys.map (fun k => (k, 1))) 1000
      = none := by
    rw [assocGet_eq_none_iff, hkeysA]
    intro hmem
    simp only [List.mem_cons, c5FreshKeys, List.mem_map, List.mem_range] at hmem
    rcases hmem with h | ⟨i, hi, h⟩ <;> omega
  have hB : getNextMsgSeq 0 ([(0, 1)] ++ c5FreshKeys.map (fun k => (k, 1)))
      1000 =
      (1, (([(0, 1)] ++ c5FreshKeys.map (fun k => (k, 1))) ++ [(1000, 1)]).drop 500) := by
    rw [getNextMsgSeq_fresh 0 _ 1000 h1000, if_pos (by rw [hlenA]; omega)]
  have hgetB : assocGet
      ((([(0, 1)] ++ c5FreshKeys.map (fun k => (k, 1))) ++ [(1000, 1)]).drop 500)
      0 = none := by
    rw [assocGet_eq_none_iff, List.map_drop]
    intro hmem
    rw [List.map_append, hkeysA] at hmem
    have hshape : ((0 :: c5FreshKeys) ++ [((1000 : Nat), (1 : Nat))].map Prod.fst).drop 500 =
        (c5FreshKeys ++ [((1000 : Nat), (1 : Nat))].map Prod.fst).drop 499 := by
      rw [List.cons_append, List.drop_succ_cons]
    rw [hshape] at hmem
    have hmem₂ := List.mem_of_mem_drop hmem
    simp only [List.mem_append, List.map_cons, List.map_nil,
      List.mem_singleton] at hmem₂
    rcases hmem₂ with h | h
    · exact c5_fresh_ne_zero 0 h rfl
    · exact absurd h (by omega)
  have hlast : (getNextMsgSeq 0
      ((([(0, 1)] ++ c5FreshKeys.map (fun k => (k, 1))) ++ [(1000, 1)]).drop 500)
      0).1 = 1 := by
    rw [getNextMsgSeq_fresh 0 _ 0 hgetB]
  have hmid : (runMsgSeq 0 ([(0, 1)] : MsgSeqState Nat)
      (c5FreshKeys ++ [1000])).1 =
      (([(0, 1)] ++ c5FreshKeys.map (fun k => (k, 1))) ++ [(1000, 1)]).drop 500 := by
    rw [runMsgSeq_append 0 c5FreshKeys [1000] [(0, 1)]]
    dsimp only
    rw [hA, runMsgSeq_singleton]
    dsimp only
    rw [hB]
  refine ⟨rfl, ?_, ?_, ?_⟩
  · rw [show c5Trace = (0 :: (c5FreshKeys ++ [1000])) ++ [0] from by
      simp [c5Trace], List.getLast?_concat]
  · rw [show c5Trace = 0 :: (c5FreshKeys ++ [1000, 0]) from rfl,
      runMsgSeq_cons, h0]
    simp
  · rw [show c5Trace = 0 :: ((c5FreshKeys ++ [1000]) ++ [0]) from by
      simp [c5Trace], runMsgSeq_cons, h0]
    dsimp only
    rw [runMsgSeq_append 0 (c5FreshKeys ++ [1000]) [0] [(0, 1)]]
    dsimp only
    rw [hmid, runMsgSeq_singleton]
    dsimp only
    rw [hlast, ← List.cons_append, List.getLast?_concat]

/-! ## Reconnect state machine around the close handler
(src/gateway.ts lines 126-186, 959-982 and 989-1046; unnamed/part_003 lines
1314-1371 has the identical close handler) -/

/-- src/gateway.ts line 45: `MAX_RECONNECT_ATTEMPTS = 100`. -/
def MAX_RECONNECT_ATTEMPTS : Nat := 100

/-- src/gateway.ts line 46: `MAX_QUICK_DISCONNECT_COUNT = 3`. -/
def MAX_QUICK_DISCONNECT_COUNT : Nat := 3

/-- src/gateway.ts line 47: `QUICK_DISCONNECT_THRESHOLD = 5000` ms. -/
def QUICK_DISCONNECT_THRESHOLD : Int := 5000

/-- The mutable closure state of `startGateway` that the close handler, the
op-9 handler, the reconnect timer and the abort listener read and write
(src/gateway.ts lines 126-137).  The WebSocket object, heartbeat timer and
log plumbing are not modelled; `reconnectTimerPending` models
`reconnectTimer !== null`. -/
structure GwState where
  isAborted : Bool
  isConnecting : Bool
  reconnectAttempts : Nat
  reconnectTimerPending : Bool
  sessionId : Option String
  lastSeq : Option Int
  shouldRefreshToken : Bool
  quickDisconnectCount : Nat
  lastConnectTime : Int
  intentLevelIndex : Nat
  lastSuccessfulIntentLevel : Int
  deriving Repr, DecidableEq

/-- src/gateway.ts lines 166-187: `scheduleReconnect` — a no-op when aborted
or out of attempts; otherwise it cancels any pending timer, bumps the
attempt counter and arms a fresh timer (the delay value only affects when
the timer fires, which the post-close step relation leaves to the
environment, so it is not recorded in the state). -/
def scheduleReconnect (st : GwState) : GwState :=
  if st.isAborted ∨ st.reconnectAttempts ≥ MAX_RECONNECT_ATTEMPTS then st
  else { st with reconnectTimerPending := true,
                 reconnectAttempts := st.reconnectAttempts + 1 }

/-- src/gateway.ts lines 959-982: the op-9 (Invalid Session) handler.  On a
non-resumable invalid session the session is cleared and the intent level
advanced (or a token refresh flagged at the lowest level); either way a
3-second reconnect is scheduled. -/
def op9Handler (st : GwState) (canResume : Bool) : GwState :=
  let st₂ :=
    if ¬ canResume then
      let st₃ := { st with sessionId := none, lastSeq := none }
      if st₃.intentLevelIndex < INTENT_LEVELS.length - 1 then
        { st₃ with intentLevelIndex := st₃.intentLevelIndex + 1 }
      else { st₃ with shouldRefreshToken := true }
    else st
  scheduleReconnect st₂

/-- src/gateway.ts lines 989-1046: the `close` handler.  Codes 4914/4915
return at once after cleanup — no reconnect is scheduled, and a previously
armed reconnect timer is not cancelled.  Code 4009 flags a token refresh;
codes 4900-4913 clear the session and flag a refresh; a quick disconnect
(within 5 s of open) bumps a counter, and the third consecutive one
reconnects with the 60 s rate-limit delay; otherwise a non-1000 close
schedules an ordinary reconnect. -/
def closeHandler (st : GwState) (code : Nat) (now : Int) : GwState :=
  let st := { st with isConnecting := false }
  if code = 4914 ∨ code = 4915 then st
  else
    let st :=
      if code = 4009 then { st with shouldRefreshToken := true }
      else if 4900 ≤ code ∧ code ≤ 4913 then
        { st with sessionId := none, lastSeq := none, shouldRefreshToken := true }
      else st
    let connectionDuration := now - st.lastConnectTime
    if connectionDuration < QUICK_DISCONNECT_THRESHOLD ∧ st.lastConnectTime > 0 then
      let st := { st with quickDisconnectCount := st.quickDisconnectCount + 1 }
      if st.quickDisconnectCount ≥ MAX_QUICK_DISCONNECT_COUNT then
        let st := { st with quickDisconnectCount := 0 }
        if ¬ st.isAborted ∧ code ≠ 1000 then scheduleReconnect st else st
      else if ¬ st.isAborted ∧ code ≠ 1000 then scheduleReconnect st else st
    else
      let st := { st with quickDisconnectCount := 0 }
      if ¬ st.isAborted ∧ code ≠ 1000 then scheduleReconnect st else st

/-- The reconnect timer callback (src/gateway.ts lines 180-185): when the
armed timer fires it clears itself and calls `connect()` unless aborted.
The returned flag reports whether `connect()` was invoked. -/
def reconnectTimerFire (st : GwState) : GwState × Bool :=
  if st.reconnectTimerPending then
    ({ st with reconnectTimerPending := false }, ¬ st.isAborted)
  else (st, false)

/-- Events that can still occur for the account after its WebSocket has
closed: the armed reconnect timer firing, or the abort listener
(src/gateway.ts lines 140-147) which cancels the timer and sets the abort
flag. -/
inductive PostCloseEvent where
  | timerFire
  | abort
  deriving Repr, DecidableEq

/-- One post-close step; the flag reports whether `connect()` was invoked. -/
def postCloseStep (st : GwState) : PostCloseEvent → GwState × Bool
  | .timerFire => reconnectTimerFire st
  | .abort => ({ st with isAborted := true, reconnectTimerPending := false }, false)

/-- Whether any step of a post-close event sequence invokes `connect()`. -/
def postCloseRun (st : GwState) : List PostCloseEvent → Bool
  | [] => false
  | e :: rest =>
      let step := postCloseStep st e
      step.2 || postCloseRun step.1 rest

theorem scheduleReconnect_intentLevelIndex (st : GwState) :
    (scheduleReconnect st).intentLevelIndex = st.intentLevelIndex := by
  unfold scheduleReconnect
  split <;> rfl

/-- The intent-level index stays at most 2 across the op-9 downgrade step
(the advance is guarded by `intentLevelIndex < INTENT_LEVELS.length - 1`),
which justifies the index bounds assumed by the Hello-handler theorem. -/
theorem op9Handler_intentLevelIndex_le (st : GwState) (canResume : Bool)
    (h : st.intentLevelIndex ≤ 2) :
    (op9Handler st canResume).intentLevelIndex ≤ 2 := by
  unfold op9Handler
  rw [scheduleReconnect_intentLevelIndex]
  cases canResume with
  | true =>
    rw [if_neg (by decide)]
    exact h
  | false =>
    rw [if_pos (by decide)]
    dsimp only
    split
    next hlt =>
      dsimp only
      have h₃ : INTENT_LEVELS.length = 3 := rfl
      rw [h₃] at hlt
      omega
    next hlt =>
      dsimp only
      exact h

/-- A ready, healthy gateway state used by the C6 counterexample. -/
def c6ReadyState : GwState :=
  { isAborted := false, isConnecting := false, reconnectAttempts := 0,
    reconnectTimerPending := false, sessionId := some "S1", lastSeq := some 5,
    shouldRefreshToken := false, quickDisconnectCount := 0,
    lastConnectTime := 1000, intentLevelIndex := 0,
    lastSuccessfulIntentLevel := 0 }

/-- Counterexample for C6: the server answers with op-9 (invalid session,
not resumable) — the handler schedules a 3-second reconnect — and then
closes the socket with code 4914 before that timer fires.  The close handler
indeed schedules nothing, but it does not cancel the already-armed timer,
so when the timer fires, `connect()` is re-entered after the 4914 close:
the claim that no later step re-enters connect is false. -/
theorem close4914_pending_timer_reconnects_counterexample :
    (closeHandler (op9Handler c6ReadyState false) 4914 2000).reconnectTimerPending
      = true ∧
    postCloseRun (closeHandler (op9Handler c6ReadyState false) 4914 2000)
      [.timerFire] = true := by
  decide

theorem postCloseRun_no_timer (evs : List PostCloseEvent) :
    ∀ st : GwState, st.reconnectTimerPending = false →
      postCloseRun st evs = false := by
  induction evs with
  | nil => intro st _; rfl
  | cons e rest ih =>
    intro st hp
    cases e with
    | timerFire =>
      simp only [postCloseRun, postCloseStep, reconnectTimerFire, hp,
        Bool.false_eq_true, if_false]
      exact ih st hp
    | abort =>
      simp only [postCloseRun, postCloseStep, Bool.false_or]
      exact ih _ rfl

/-- C6 amended -- after a close with code 4914 or 4915 the close handler
returns without scheduling any reconnect (the timer-armed flag and the
attempt counter are untouched), and provided no reconnect timer was already
pending when the close arrived, no later step (timer fire or abort) ever
re-enters `connect()` for that account; a reconnect timer armed before the
close (for example by an op-9 invalid-session handler) is however not
cancelled and will still re-enter `connect()` when it fires. -/
theorem closeHandler_4914_4915_stops (st : GwState) (code : Nat) (now : Int)
    (hcode : code = 4914 ∨ code = 4915) :
    (closeHandler st code now).reconnectTimerPending = st.reconnectTimerPending ∧
    (closeHandler st code now).reconnectAttempts = st.reconnectAttempts ∧
    (st.reconnectTimerPending = false →
      ∀ evs : List PostCloseEvent,
        postCloseRun (closeHandler st code now) evs = false) := by
  have hred : closeHandler st code now = { st with isConnecting := false } := by
    unfold closeHandler
    rw [if_pos hcode]
  rw [hred]
  exact ⟨rfl, rfl, fun hp evs => postCloseRun_no_timer evs _ hp⟩

/-- Witness for the amended C6: a 4914 close on a healthy state with no
pending timer arms nothing, and neither a timer-fire nor an abort event
afterwards re-enters connect. -/
theorem closeHandler_4914_4915_stops_witness :
    (closeHandler c6ReadyState 4914 2000).reconnectTimerPending = false ∧
    postCloseRun (closeHandler c6ReadyState 4914 2000) [.timerFire, .abort]
      = false := by
  have h := closeHandler_4914_4915_stops c6ReadyState 4914 2000 (Or.inl rfl)
  constructor
  · rw [h.1]
    rfl
  · exact h.2.2 rfl [.timerFire, .abort]

end QQBot
